import Mathlib

/-!
Shallow embedding of the receipt-ingestion pipeline of this repository:
the Express receipt processor (src/server/receipt-processor.ts), the
Electron receipt processor, and the Ollama adapter (src/main/ollama-service.ts),
together with theorems settling the frozen claims about them.

Conventions:
* JavaScript numbers are modelled as exact rationals; NaN is modelled
  explicitly where the code can produce it.
* JavaScript builtins and external collaborators that are not code of this
  repository (parseFloat, new Date, the database, the LLM HTTP service,
  Fuse.js) enter as explicit function parameters or as outcome values
  (Except / Option), never as hard-coded stubs.
* Strings are processed as lists of characters; the receipts handled by the
  code are ASCII, so the ASCII fragment of the JS semantics is used.
-/

namespace Receipt

/-! ### JavaScript string and number primitives -/

/-- Whitespace as matched by the JavaScript regex space class and by
String.prototype.trim (ASCII fragment). -/
def isRegexSpace (c : Char) : Bool :=
  c == ' ' || c == '\t' || c == '\n' || c == '\r' || c == '\x0b' || c == '\x0c'

/-- Left part of JavaScript trim on a character list. -/
def trimLeftC (l : List Char) : List Char := l.dropWhile isRegexSpace

/-- Right part of JavaScript trim on a character list. -/
def trimRightC (l : List Char) : List Char := (l.reverse.dropWhile isRegexSpace).reverse

/-- JavaScript String.prototype.trim on a character list. -/
def jsTrimC (l : List Char) : List Char := trimRightC (trimLeftC l)

/-- JavaScript String.prototype.trim. -/
def jsTrim (s : String) : String := ⟨jsTrimC s.toList⟩

/-- JavaScript String.prototype.toLowerCase (ASCII fragment). -/
def jsLower (s : String) : String := ⟨s.toList.map Char.toLower⟩

/-- JavaScript Math.round: round half towards positive infinity. -/
def jsRound (q : ℚ) : ℤ := ⌊q + 1/2⌋

/-- Math.round(q * 100) / 100: the two-decimal rounding used throughout the
source. -/
def round2 (q : ℚ) : ℚ := (jsRound (q * 100) : ℚ) / 100

/-- text.split(on the separator predicate p) with empty pieces dropped: this
is JS split on a regex of p-runs followed by a nonempty filter, and likewise
split on a single separator character followed by a nonempty filter. -/
def piecesBy (p : Char → Bool) (l : List Char) : List (List Char) :=
  (l.splitOnP p).filter (fun w => w ≠ [])

/-- ocrText.split(newline) keeping empty lines (JS split on a plain
one-character string). -/
def rawLines (l : List Char) : List (List Char) := l.splitOnP (fun c => c == '\n')

/-- Non-blank lines: .split(newline).filter(line trimmed nonempty), the shape
used by both processors and by the quality gate. -/
def nonBlankLines (l : List Char) : List (List Char) :=
  (rawLines l).filter (fun ln => jsTrimC ln ≠ [])

/-- Anchored prefix test on character lists. -/
def startsWithChars : List Char → List Char → Bool
  | [], _ => true
  | _ :: _, [] => false
  | p :: ps, c :: cs => p == c && startsWithChars ps cs

/-- Substring containment on character lists (JS String.prototype.includes). -/
def containsChars (needle : List Char) : List Char → Bool
  | [] => startsWithChars needle []
  | c :: t => startsWithChars needle (c :: t) || containsChars needle t

/-- Numeric value of an ASCII digit character. -/
def digitVal (c : Char) : ℕ := c.toNat - 48

/-- Big-endian digit-character list to a natural number (the integer part of
JS parseFloat on an all-digit string). -/
def digitsToNat (l : List Char) : ℕ := l.foldl (fun n c => 10 * n + digitVal c) 0

/-! ### OCR quality gate (src/server/receipt-processor.ts lines 490-524)

A ratio whose denominator is zero is NaN in JavaScript and every comparison
with NaN is false; this is modelled by the explicit nonzero-denominator
conjuncts in the two ratio rules. -/

/-- Characters that are NOT "special" for the OCR quality gate, i.e. the
complement of the regex class of characters other than alphanumerics,
whitespace, dollar, period, comma, colon, slash and hyphen. -/
def isOcrPlain (c : Char) : Bool :=
  c.isAlphanum || isRegexSpace c || c == '$' || c == '.' || c == ',' ||
  c == ':' || c == '/' || c == '-'

/-- Character class of the gate's anchored "valid word" pattern: one or more
alphanumerics, dollar, period, comma, colon, slash or hyphen characters. -/
def isWordChar (c : Char) : Bool :=
  c.isAlphanum || c == '$' || c == '.' || c == ',' || c == ':' || c == '/' || c == '-'

/-- Gate rule 1: text.length less than 20. -/
abbrev ocrTooShort (l : List Char) : Prop := l.length < 20

/-- Gate rule 2: special-character ratio above 0.3. -/
abbrev ocrSpecialRatioHigh (l : List Char) : Prop :=
  l.length ≠ 0 ∧
    (3 : ℚ)/10 < ((l.filter (fun c => !(isOcrPlain c))).length : ℚ) / (l.length : ℚ)

/-- Gate rule 3: valid-word ratio below 0.6. -/
abbrev ocrLowWordRatio (l : List Char) : Prop :=
  (piecesBy isRegexSpace l).length ≠ 0 ∧
    (((piecesBy isRegexSpace l).filter (fun w => w.all isWordChar)).length : ℚ) /
        ((piecesBy isRegexSpace l).length : ℚ) < (6 : ℚ)/10

/-- Gate rule 4: fewer than 3 non-blank lines. -/
abbrev ocrFewLines (l : List Char) : Prop := (nonBlankLines l).length < 3

/-- Result record of the OCR quality gate. -/
structure OCRQuality where
  score : ℤ
  issues : List String
deriving DecidableEq

/-- validateOCRQuality (src/server/receipt-processor.ts lines 490-524). -/
def validateOCRQuality (text : String) : OCRQuality :=
  { score := max 0 (10 - (if ocrTooShort text.toList then 3 else 0)
      - (if ocrSpecialRatioHigh text.toList then 4 else 0)
      - (if ocrLowWordRatio text.toList then 2 else 0)
      - (if ocrFewLines text.toList then 1 else 0))
    issues :=
      (if ocrTooShort text.toList then ["Text too short"] else []) ++
      (if ocrSpecialRatioHigh text.toList then ["Too many special characters"] else []) ++
      (if ocrLowWordRatio text.toList then ["Low valid word ratio"] else []) ++
      (if ocrFewLines text.toList then ["Too few lines detected"] else []) }

/-- The OCR retry policy of processReceipt (src/server/receipt-processor.ts
lines 33-44): a retry with the alternate segmentation mode is attempted iff
the gate score is below 5. -/
def ocrRetryTriggered (text : String) : Bool := (validateOCRQuality text).score < 5

/-- A 500-character alphanumeric string with no spaces (concrete instance of
the "random alphanumeric" family of C5). -/
def alnum500 : String := ⟨(List.replicate 50 "a0b1c2d3e4".toList).flatten⟩

/-- The well-formed multi-line receipt-like strings of C5: at least 3
non-blank lines, at least 20 characters, special-character ratio within the
gate's 0.3 bound and valid-word ratio within its 0.6 bound. -/
abbrev wellFormedReceipt (text : String) : Prop :=
  20 ≤ text.toList.length ∧
  3 ≤ (nonBlankLines text.toList).length ∧
  ((text.toList.filter (fun c => !(isOcrPlain c))).length : ℚ) / (text.toList.length : ℚ) ≤ 3/10 ∧
  (6 : ℚ)/10 ≤
    (((piecesBy isRegexSpace text.toList).filter (fun w => w.all isWordChar)).length : ℚ) /
      ((piecesBy isRegexSpace text.toList).length : ℚ)

/-! ### The ExtractedFields value object and the validator/normalizer
(Electron receipt processor, validateAndCleanExtractedData, lines 421-508) -/

/-- A JavaScript number: an exact value or NaN. -/
inductive JsNum
  | num (q : ℚ)
  | nan
deriving DecidableEq

/-- The dynamic values the amount field can hold in the source: null (or
undefined), a number, NaN, or a string (a strategy may hand back a string
that the validator coerces with parseFloat). -/
inductive JsAmount
  | null
  | num (q : ℚ)
  | nan
  | str (s : String)
deriving DecidableEq

/-- A line item as built by the extractors. -/
structure Item where
  description : String
  price : ℚ
  quantity : ℕ
deriving DecidableEq

/-- The ExtractedFields value object passed between pipeline stages
(vendor/date/amount possibly null, plus confidence, items and the raw text
carried along by the Electron pipeline). -/
structure ExtractedData where
  vendor : Option String
  date : Option String
  amount : JsAmount
  confidence : ℚ
  items : List Item
  rawText : String
deriving DecidableEq

/-- JS truthiness of the amount field: null, undefined, NaN, 0 and the empty
string are falsy. -/
def amountTruthy : JsAmount → Bool
  | .num q => decide (q ≠ 0)
  | .str s => s != ""
  | _ => false

/-- JS truthiness of a nullable string field: null, undefined and the empty
string are falsy. -/
def strTruthy : Option String → Bool
  | some s => s != ""
  | none => false

/-- Vendor leg of the validator (lines 426-440): trim, then reject when
shorter than 2 characters or case-insensitively equal to "null"/"unknown".
A falsy vendor (null or empty string) is left untouched. -/
def vendorStep : Option String → Option String
  | none => none
  | some s =>
    if s = "" then some s
    else if (jsTrim s).length < 2 then none
    else if jsLower (jsTrim s) = "null" ∨ jsLower (jsTrim s) = "unknown" then none
    else some (jsTrim s)

/-- The anchored date shape test: four digits, hyphen, two digits, hyphen,
two digits (the validator's YYYY-MM-DD regex). -/
def dateRegexOk (s : String) : Bool :=
  match s.toList with
  | [y1, y2, y3, y4, h1, m1, m2, h2, d1, d2] =>
    y1.isDigit && y2.isDigit && y3.isDigit && y4.isDigit && h1 == '-' &&
    m1.isDigit && m2.isDigit && h2 == '-' && d1.isDigit && d2.isDigit
  | _ => false

/-- Date leg of the validator (lines 443-462): must match YYYY-MM-DD and
parse to a valid JS Date; jsDateValid models the builtin new Date validity
test. A falsy date is left untouched. -/
def dateStep (jsDateValid : String → Bool) : Option String → Option String
  | none => none
  | some s =>
    if s = "" then some s
    else if !(dateRegexOk s) then none
    else if !(jsDateValid s) then none
    else some s

/-- The numeric checks of the validator's amount leg (lines 474-486): reject
nonpositive and above-10000 values, round survivors to two decimals. -/
def amountClip (q : ℚ) : JsAmount :=
  if q ≤ 0 then .null else if 10000 < q then .null else .num (round2 q)

/-- Amount leg of the validator (lines 465-489): coerce a string with
parseFloat (pf models the builtin; none is NaN), reject NaN, then apply the
numeric checks. -/
def amountStep (pf : String → Option ℚ) (a : JsAmount) : JsAmount :=
  match a with
  | .null => .null
  | .nan => .null
  | .str s =>
    match pf s with
    | none => .null
    | some q => amountClip q
  | .num q => amountClip q

/-- Confidence recompute of the validator (lines 491-497): base 0.5, plus 0.3
for a truthy amount, 0.2 for a truthy vendor, 0.1 for a truthy date. -/
def confRecompute (a : JsAmount) (v dt : Option String) : ℚ :=
  1/2 + (if amountTruthy a then 3/10 else 0) + (if strTruthy v then 1/5 else 0)
    + (if strTruthy dt then 1/10 else 0)

/-- validateAndCleanExtractedData (Electron receipt processor lines 421-508):
validates vendor, date and amount independently and recomputes confidence
from the validated fields; items and rawText pass through unchanged. -/
def validateAndCleanExtractedData (pf : String → Option ℚ) (jsDateValid : String → Bool)
    (d : ExtractedData) : ExtractedData :=
  { vendor := vendorStep d.vendor
    date := dateStep jsDateValid d.date
    amount := amountStep pf d.amount
    confidence := confRecompute (amountStep pf d.amount) (vendorStep d.vendor)
      (dateStep jsDateValid d.date)
    items := d.items
    rawText := d.rawText }

/-! ### Expense materializer (Electron receipt processor,
createExpenseFromExtractedData, lines 510-632) -/

/-- JS comparison (value less-or-equal 0) on the amount field, with ToNumber
string coercion supplied as a parameter; a NaN comparison is false, and
ToNumber(null) is 0. -/
def jsLeZero (toNum : String → JsNum) : JsAmount → Bool
  | .null => true
  | .nan => false
  | .num q => decide (q ≤ 0)
  | .str s =>
    match toNum s with
    | .num q => decide (q ≤ 0)
    | .nan => false

/-- Helper consuming a lowercase keyword then a greedy regex-space run, for
the anchored invalid-vendor patterns. -/
def afterWord (kw : List Char) : List Char → Option (List Char)
  | l =>
    if startsWithChars kw l then some ((l.drop kw.length).dropWhile isRegexSpace)
    else none

/-- The invalid-vendor blocklist of the materializer (lines 546-555): eight
anchored case-insensitive patterns. The input is lowercased first, which is
equivalent to the case-insensitive flag for these all-letter patterns. -/
def isInvalidVendor (s : String) : Bool :=
  let l := s.toList.map Char.toLower
  (match afterWord "order".toList l with
   | some r => r = "detail".toList || r = "details".toList
   | none => false) ||
  (match afterWord "ship".toList l with
   | some r => r = "to".toList
   | none => false) ||
  (match afterWord "bill".toList l with
   | some r => r = "to".toList
   | none => false) ||
  l = "invoice".toList ||
  l = "receipt".toList ||
  (match afterWord "thank".toList l with
   | some r => r = "you".toList
   | none => false) ||
  (match afterWord "customer".toList l with
   | some r => r = "copy".toList
   | none => false) ||
  (match afterWord "page".toList l with
   | some r => r ≠ [] && r.all Char.isDigit
   | none => false)

/-- formatDate (Electron receipt processor lines 685-715): keep a string
already in YYYY-MM-DD shape; otherwise parse with the JS Date builtin
(jsDateParse, returning the formatted YYYY-MM-DD on success) and fall back to
today's date. -/
def formatDate (jsDateParse : String → Option String) (today : String) (s : String) : String :=
  if dateRegexOk s then s
  else
    match jsDateParse s with
    | some iso => iso
    | none => today

/-- The fixed tag pair attached to every auto-created expense. -/
def expenseTags : List String := ["receipt-import", "auto-created"]

/-- An expense row as inserted by the materializer. -/
structure Expense where
  id : String
  amount : JsAmount
  description : String
  category : String
  date : String
  vendor : String
  tags : List String
  receiptId : String
deriving DecidableEq

/-- createExpenseFromExtractedData (Electron receipt processor lines
510-632).  Parameters model the collaborators: resolveCategory the
getOrCreateCategory storage lookup, today the current date, newId the fresh
uuid, jsDateParse the JS Date builtin used by formatDate, toNum the JS
ToNumber coercion, and insertExpense the outcome of the INSERT INTO expenses
write.  The try/catch around the body returns null on any thrown persistence
error, which is modelled by the match on insertExpense. -/
def createExpenseFromExtractedData (resolveCategory : String → String)
    (today : String) (newId : String) (jsDateParse : String → Option String)
    (toNum : String → JsNum) (insertExpense : Except String Unit)
    (d : ExtractedData) (receiptId : String) : Option Expense :=
  if !(amountTruthy d.amount) || jsLeZero toNum d.amount then none
  else
    let vendorVal : String := (d.vendor).getD ""
    let description : String :=
      if strTruthy d.vendor then "Purchase at " ++ vendorVal else "Receipt purchase"
    let categoryId := resolveCategory (if strTruthy d.vendor then vendorVal else "Other")
    let expenseDate : String :=
      if strTruthy d.date then formatDate jsDateParse today ((d.date).getD "") else today
    let vendorForDb0 : String := if strTruthy d.vendor then vendorVal else "Unknown"
    let vendorForDb : String :=
      if vendorForDb0 ≠ "Unknown" ∧ isInvalidVendor vendorForDb0 then "Unknown" else vendorForDb0
    match insertExpense with
    | .error _ => none
    | .ok _ =>
      some { id := newId, amount := d.amount, description := description,
             category := categoryId, date := expenseDate, vendor := vendorForDb,
             tags := expenseTags, receiptId := receiptId }

/-! ### Job status flow of processReceipt (Electron receipt processor lines
93-188) -/

/-- Receipt job status values. -/
inductive JobStatus
  | pending
  | processing
  | completed
  | failed
deriving DecidableEq

/-- The persistence-relevant control flow of processReceipt: the OCR/PDF
stage outcome (textResult), then the receipts-table results write
(updateReceiptResult), then the expense materializer whose own insert outcome
is insertExpenseResult.  A throw from the results write reaches the outer
catch and marks the job failed; a throw inside the materializer is swallowed
by its local catch (createExpenseFromExtractedData returns null) and the job
still completes. -/
def processReceiptPersistence
    (textResult : Except String String)
    (extract : String → ExtractedData)
    (updateReceiptResult : Except String Unit)
    (resolveCategory : String → String) (today newId : String)
    (jsDateParse : String → Option String) (toNum : String → JsNum)
    (insertExpenseResult : Except String Unit)
    (receiptId : String) : JobStatus × Option Expense :=
  match textResult with
  | .error _ => (.failed, none)
  | .ok text =>
    match updateReceiptResult with
    | .error _ => (.failed, none)
    | .ok _ =>
      (.completed,
        createExpenseFromExtractedData resolveCategory today newId jsDateParse toNum
          insertExpenseResult (extract text) receiptId)

/-! ### Simple-pattern fallback extraction and the Gemma pipeline (Electron
receipt processor, trySimpleExtraction lines 369-419 and
extractReceiptDataWithGemma lines 295-367) -/

/-- Case-insensitive literal keyword consumption (the keyword is given in
lowercase). -/
def stripKwCI : List Char → List Char → Option (List Char)
  | [], l => some l
  | _ :: _, [] => none
  | k :: ks, c :: cs => if c.toLower == k then stripKwCI ks cs else none

/-- Greedy consumption of the two-decimal fraction part of the money number
patterns: an optional group of period plus exactly two digits. -/
def moneyFrac (l : List Char) : List Char × List Char :=
  match l with
  | '.' :: c1 :: c2 :: rest =>
    if c1.isDigit && c2.isDigit then (['.', c1, c2], rest) else ([], l)
  | _ => ([], l)

/-- Greedy consumption of the thousands groups of the server money patterns:
zero or more groups of comma plus exactly three digits. -/
def moneyReps : List Char → List Char × List Char
  | ',' :: c1 :: c2 :: c3 :: rest =>
    if c1.isDigit && c2.isDigit && c3.isDigit then
      let (more, rest2) := moneyReps rest
      (',' :: c1 :: c2 :: c3 :: more, rest2)
    else ([], ',' :: c1 :: c2 :: c3 :: rest)
  | l => ([], l)

/-- The number token of the server money patterns: one to four digits, then
optional comma-separated thousands groups, then an optional two-decimal
fraction; returns the captured characters and the remaining input.  The
greedy left-to-right reading is exact here because every later part of the
pattern is optional and starts with a non-digit. -/
def parseNumToken (l : List Char) : Option (List Char × List Char) :=
  if (l.takeWhile Char.isDigit).take 4 = [] then none
  else
    some ((l.takeWhile Char.isDigit).take 4
        ++ (moneyReps (l.drop ((l.takeWhile Char.isDigit).take 4).length)).1
        ++ (moneyFrac (moneyReps (l.drop ((l.takeWhile Char.isDigit).take 4).length)).2).1,
      (moneyFrac (moneyReps (l.drop ((l.takeWhile Char.isDigit).take 4).length)).2).2)

/-- parseFloat on a captured money token after comma removal: integer part
plus an optional exactly-two-digit fraction. -/
def parseMoneyVal (capture : List Char) : ℚ :=
  (digitsToNat ((capture.filter (fun c => c != ',')).takeWhile (fun c => c != '.')) : ℚ) +
    (digitsToNat (((capture.filter (fun c => c != ',')).dropWhile (fun c => c != '.')).drop 1) : ℚ)
      / 100

/-- The number token of the simple fallback amount pattern: one to four
digits then an optional two-decimal fraction (no thousands groups). -/
def parseSimpleNum (l : List Char) : Option (List Char × List Char) :=
  if (l.takeWhile Char.isDigit).take 4 = [] then none
  else
    some ((l.takeWhile Char.isDigit).take 4
        ++ (moneyFrac (l.drop ((l.takeWhile Char.isDigit).take 4).length)).1,
      (moneyFrac (l.drop ((l.takeWhile Char.isDigit).take 4).length)).2)

/-- Consumption of the optional dollar sign of the amount patterns. -/
def stripDollar : List Char → List Char
  | '$' :: t => t
  | l => l

/-- Suffix of the simple fallback amount pattern after the keyword: a greedy
run of spaces/colons, an optional dollar sign, then the captured number. -/
def afterSimpleLabel (rest : List Char) : Option ℚ :=
  match parseSimpleNum (stripDollar (rest.dropWhile (fun c => isRegexSpace c || c == ':'))) with
  | some (cap, _) => some (parseMoneyVal cap)
  | none => none

/-- One anchored attempt of the simple fallback amount pattern: keyword
"total" or "amount" (tried in the regex alternation order), then the suffix. -/
def simpleLabelAt (l : List Char) : Option ℚ :=
  match stripKwCI "total".toList l with
  | some r =>
    match afterSimpleLabel r with
    | some q => some q
    | none =>
      match stripKwCI "amount".toList l with
      | some r2 => afterSimpleLabel r2
      | none => none
  | none =>
    match stripKwCI "amount".toList l with
    | some r2 => afterSimpleLabel r2
    | none => none

/-- Leftmost match of the simple fallback amount pattern over the whole text. -/
def findSimpleAmountFrom : List Char → Option ℚ
  | [] => none
  | c :: rest =>
    match simpleLabelAt (c :: rest) with
    | some q => some q
    | none => findSimpleAmountFrom rest

/-- Exactly-four-digit group of the simple fallback date pattern. -/
def dateDigits4 : List Char → Option (List Char × List Char)
  | a :: b :: c :: d :: rest =>
    if a.isDigit && b.isDigit && c.isDigit && d.isDigit then some ([a, b, c, d], rest)
    else none
  | _ => none

/-- One-or-two-digit component of the simple fallback date pattern, candidate
splits in the regex backtracking order (two digits first). -/
def dateComp (l : List Char) : List (List Char × List Char) :=
  match l with
  | a :: b :: rest =>
    (if a.isDigit && b.isDigit then [([a, b], rest)] else []) ++
    (if a.isDigit then [([a], b :: rest)] else [])
  | [a] => if a.isDigit then [([a], [])] else []
  | [] => []

/-- One anchored attempt of the simple fallback date pattern
(one-or-two digits, slash, one-or-two digits, slash, four digits). -/
def dateAt (l : List Char) : Option (List Char) :=
  (dateComp l).findSome? fun p =>
    match p.2 with
    | '/' :: r2 =>
      (dateComp r2).findSome? fun p2 =>
        match p2.2 with
        | '/' :: r4 =>
          match dateDigits4 r4 with
          | some (y, _) => some (p.1 ++ '/' :: p2.1 ++ '/' :: y)
          | none => none
        | _ => none
    | _ => none

/-- Leftmost match of the simple fallback date pattern over the whole text. -/
def findSimpleDateFrom : List Char → Option (List Char)
  | [] => none
  | c :: rest =>
    match dateAt (c :: rest) with
    | some d => some d
    | none => findSimpleDateFrom rest

/-- Dollar-sign head test for the fallback vendor heuristic. -/
def startsDollar : List Char → Bool
  | '$' :: _ => true
  | _ => false

/-- trySimpleExtraction (Electron receipt processor lines 369-419): basic
keyword-amount and slash-date patterns over the whole text, first non-blank
line as vendor candidate, fixed confidence 0.3.  jsDateParse models the JS
Date builtin turning the matched date into its ISO day (none when invalid). -/
def trySimpleExtraction (jsDateParse : String → Option String) (ocrText : String) :
    ExtractedData :=
  let lines := nonBlankLines ocrText.toList
  let amount : JsAmount :=
    match findSimpleAmountFrom ocrText.toList with
    | some q => .num q
    | none => .null
  let date : Option String :=
    match findSimpleDateFrom ocrText.toList with
    | some ds => jsDateParse ⟨ds⟩
    | none => none
  let vendor : Option String :=
    match lines with
    | [] => none
    | l0 :: _ =>
      let f := jsTrimC l0
      if 2 < f.length ∧ f.length < 50 ∧ ¬(f ≠ [] ∧ f.all Char.isDigit = true) ∧
          startsDollar f = false then
        some ⟨f⟩
      else none
  { vendor := vendor, date := date, amount := amount, confidence := 3/10,
    items := [], rawText := ocrText }

/-- The structured object the Ollama adapter hands back (vendor, date, amount
each possibly null; the regex fallback path can produce a NaN amount). -/
structure LLMFields where
  vendor : Option String
  date : Option String
  amount : Option JsNum
deriving DecidableEq

/-- The pre-validation part of extractReceiptDataWithGemma (Electron receipt
processor lines 295-351).  llm is the outcome of the
ollamaService.extractReceiptData call: an exception, null (collaborator
unavailable, timeout, or nothing parseable), or a structured object.  On a
structured object the non-null fields are taken over an all-null initial
record and confidence is set to 0.9; otherwise the whole record is replaced
by the simple-pattern fallback (confidence 0.3). -/
def extractReceiptDataWithGemmaPre (jsDateParse : String → Option String)
    (llm : Except String (Option LLMFields)) (useLLM : Bool) (ocrText : String) :
    ExtractedData :=
  if useLLM then
    match llm with
    | .ok (some f) =>
      { vendor := f.vendor
        date := f.date
        amount :=
          match f.amount with
          | none => .null
          | some (.num q) => .num q
          | some .nan => .nan
        confidence := 9/10
        items := []
        rawText := ocrText }
    | .ok none => trySimpleExtraction jsDateParse ocrText
    | .error _ => trySimpleExtraction jsDateParse ocrText
  else trySimpleExtraction jsDateParse ocrText

/-- extractReceiptDataWithGemma (Electron receipt processor lines 295-367):
the strategy selection above followed by the final validation pass (line
356). -/
def extractReceiptDataWithGemma (pf : String → Option ℚ) (jsDateValid : String → Bool)
    (jsDateParse : String → Option String) (llm : Except String (Option LLMFields))
    (useLLM : Bool) (ocrText : String) : ExtractedData :=
  validateAndCleanExtractedData pf jsDateValid
    (extractReceiptDataWithGemmaPre jsDateParse llm useLLM ocrText)

/-! ### PDF resolvers (Express processor processPDF lines 112-199; Electron
processor processPDF lines 717-785) -/

/-- Outcome of rasterizing plus OCR-ing one PDF page: the conversion threw or
returned no path, or it rendered to an image whose OCR either threw or
produced text. -/
inductive PageOutcome
  | convertFail
  | page (imagePath : String) (ocr : Except String String)

/-- The text a page contributes: nothing if conversion or OCR failed or if
the OCR text is whitespace-only. -/
def pageText : PageOutcome → Option String
  | .convertFail => none
  | .page _ (.error _) => none
  | .page _ (.ok t) => if jsTrim t = "" then none else some t

/-- The page loop of the Express processPDF (lines 155-184): concatenation of
page-boundary markers plus page texts over the pages, numbered from n. -/
def pagesCombined : ℕ → List PageOutcome → String
  | _, [] => ""
  | n, p :: rest =>
    (match pageText p with
     | some t => "--- Page " ++ toString n ++ " ---\n" ++ t ++ "\n\n"
     | none => "") ++ pagesCombined (n + 1) rest

/-- The representative image of the Express processPDF: set only when page 1
converted successfully (lines 166-169). -/
def pagesPrimary : ℕ → List PageOutcome → Option String
  | _, [] => none
  | n, p :: rest =>
    match p with
    | .page path _ => if n = 1 then some path else pagesPrimary (n + 1) rest
    | .convertFail => pagesPrimary (n + 1) rest

/-- processPDF of the Express processor (lines 112-199).  directText is the
pdf-parse text layer; pages are the outcomes of the rasterize-plus-OCR loop
over pages 1..min(numpages, 5).  Per-page failures are skipped; if the
combined text is blank the function throws the explicit no-extractable-text
error. -/
def processPDFserver (pdfPath : String) (directText : String)
    (pages : List PageOutcome) : Except String (String × String) :=
  if directText ≠ "" ∧ 50 < (jsTrim directText).length then .ok (directText, pdfPath)
  else if jsTrim (pagesCombined 1 pages) = "" then
    .error "No text could be extracted from any page of the PDF"
  else .ok (pagesCombined 1 pages, (pagesPrimary 1 pages).getD pdfPath)

/-- The placeholder text the Electron processPDF returns on failure. -/
def pdfFailureText : String := "PDF processing failed - please try with an image file"

/-- processPDF of the Electron processor (lines 717-785): only the first page
is rasterized, and the outer catch converts every failure into a SUCCESSFUL
result carrying a placeholder text. -/
def processPDFelectron (pdfPath : String) (directText : String)
    (page1 : PageOutcome) : Except String (String × String) :=
  if directText ≠ "" ∧ 50 < (jsTrim directText).length then .ok (directText, pdfPath)
  else
    match page1 with
    | .convertFail => .ok (pdfFailureText, pdfPath)
    | .page _ (.error _) => .ok (pdfFailureText, pdfPath)
    | .page path (.ok t) => .ok (t, path)

/-! ### Heuristic amount selection of the Express extractor
(extractReceiptData, src/server/receipt-processor.ts lines 201-293)

The vendor (Fuse.js fuzzy search), date and line-item parts of
extractReceiptData are independent of the amount selection embedded here;
the amount field of its result is exactly the selection below. -/

/-- The trimmed lowercased line used for the skip and keyword tests. -/
def cleanOf (line : String) : List Char := (jsTrimC line.toList).map Char.toLower

/-- The boilerplate prefixes whose lines are skipped by the price/total loop
(line 233). -/
def boilerplateStarts : List String :=
  ["thank you", "visit", "www", "http", "store #", "receipt #", "transaction",
   "card #", "auth #", "ref #", "shipping", "contact", "email", "phone"]

/-- Anchored test of the skip regex on the cleaned line. -/
def isBoilerplate (clean : List Char) : Bool :=
  boilerplateStarts.any fun p => startsWithChars p.toList clean

/-- The keyword test marking a line as a likely total (line 260). -/
def isLikelyTotalLine (clean : List Char) : Bool :=
  containsChars "total".toList clean || containsChars "amount due".toList clean ||
    containsChars "balance".toList clean

/-- Words of the explicit-total label alternation, in the regex alternation
order; multi-word alternatives are joined by one-or-more whitespace. -/
def totalLabelAlternatives : List (List (List Char)) :=
  [["total".toList], ["amount".toList, "due".toList], ["subtotal".toList],
   ["balance".toList, "due".toList], ["grand".toList, "total".toList]]

/-- Consume a case-insensitive word sequence joined by one-or-more whitespace
runs. -/
def stripWordsCI : List (List Char) → List Char → Option (List Char)
  | [], l => some l
  | [w], l => stripKwCI w l
  | w :: ws, l =>
    match stripKwCI w l with
    | none => none
    | some r =>
      match r with
      | c :: cs => if isRegexSpace c then stripWordsCI ws (cs.dropWhile isRegexSpace) else none
      | [] => none

/-- Suffix of the explicit-total pattern after the label: a greedy run of
spaces/colons, an optional dollar sign, a greedy space run, then the captured
server money number. -/
def afterTotalLabel (rest : List Char) : Option ℚ :=
  (parseNumToken ((stripDollar (rest.dropWhile
      (fun c => isRegexSpace c || c == ':'))).dropWhile isRegexSpace)).map
    (fun cap => parseMoneyVal cap.1)

/-- One anchored attempt of the explicit-total pattern: the alternatives in
order, each followed by the suffix. -/
def totalLabelAt (l : List Char) : Option ℚ :=
  totalLabelAlternatives.findSome? fun alt => (stripWordsCI alt l).bind afterTotalLabel

/-- Leftmost match of the explicit-total pattern on a line (case-insensitive,
unanchored). -/
def findTotalMatch : List Char → Option ℚ
  | [] => none
  | c :: rest =>
    match totalLabelAt (c :: rest) with
    | some q => some q
    | none => findTotalMatch rest

/-- All matches of the global money pattern (dollar sign, spaces, server
money number) on a line, left to right, as parsed values.  Fuel-driven
recursion; the initial fuel (the line length) dominates the number of scan
steps, each of which consumes at least one character. -/
def findMoneyAux : ℕ → List Char → List ℚ
  | 0, _ => []
  | _ + 1, [] => []
  | fuel + 1, c :: rest =>
    if c == '$' then
      match parseNumToken (rest.dropWhile isRegexSpace) with
      | some (cap, after) => parseMoneyVal cap :: findMoneyAux fuel after
      | none => findMoneyAux fuel rest
    else findMoneyAux fuel rest

/-- matchAll of the money pattern on one line. -/
def findMoneyAmounts (l : List Char) : List ℚ := findMoneyAux l.length l

/-- A collected price with its likely-total mark. -/
structure PriceEntry where
  price : ℚ
  likelyTotal : Bool
deriving DecidableEq

/-- One iteration of the price/total loop (lines 229-270) for one line:
boilerplate lines are skipped entirely; an in-range explicit-total match
overwrites the running explicit total (so the last in-range label match
wins); in-range money matches are appended with the line's likely-total
mark. -/
def scanLineStep (st : Option ℚ × List PriceEntry) (line : String) :
    Option ℚ × List PriceEntry :=
  if isBoilerplate (cleanOf line) then st
  else
    ((match findTotalMatch line.toList with
      | some t => if 0 < t ∧ t < 10000 then some t else st.1
      | none => st.1),
     st.2 ++
      ((findMoneyAmounts line.toList).filter fun p => decide (0 < p) && decide (p < 10000)).map
        fun p => PriceEntry.mk p (isLikelyTotalLine (cleanOf line)))

/-- The whole price/total loop over the document's lines. -/
def scanLines (lines : List String) : Option ℚ × List PriceEntry :=
  lines.foldl scanLineStep (none, [])

/-- The explicit-total contribution of a single line: what the loop body
would store for this line, ignoring the running state. -/
def lineTotalContribution (line : String) : Option ℚ :=
  if isBoilerplate (cleanOf line) then none
  else
    match findTotalMatch line.toList with
    | some t => if 0 < t ∧ t < 10000 then some t else none
    | none => none

/-- Insertion into a descending-by-price list (the comparator b.price minus
a.price of line 278). -/
def insertDesc (e : PriceEntry) : List PriceEntry → List PriceEntry
  | [] => [e]
  | x :: xs => if x.price ≤ e.price then e :: x :: xs else x :: insertDesc e xs

/-- Descending sort by price (allPrices.sort of line 278). -/
def sortDesc : List PriceEntry → List PriceEntry
  | [] => []
  | x :: xs => insertDesc x (sortDesc xs)

/-- The smart total selection (lines 272-293): an explicit total wins
outright; otherwise the largest likely-total price; otherwise the largest
price; absent entirely when nothing was detected. -/
def selectAmount (explicitTotal : Option ℚ) (allPrices : List PriceEntry) : Option ℚ :=
  match explicitTotal with
  | some t => some t
  | none =>
    match sortDesc allPrices with
    | [] => none
    | top :: rest =>
      match (top :: rest).filter (fun e => e.likelyTotal) with
      | lt :: _ => some lt.price
      | [] => some top.price

/-- The document's lines as split and filtered by extractReceiptData
(line 202). -/
def receiptLines (s : String) : List String :=
  (nonBlankLines s.toList).map (fun l => ⟨l⟩)

/-- The amount selection of extractReceiptData on a given line list. -/
def extractAmountLines (lines : List String) : Option ℚ :=
  selectAmount (scanLines lines).1 (scanLines lines).2

/-- The amount field of extractReceiptData (lines 201-293) on a document. -/
def extractAmount (ocrText : String) : Option ℚ :=
  extractAmountLines (receiptLines ocrText)

/-- ASCII character of a decimal digit. -/
def digitChar : ℕ → Char
  | 0 => '0'
  | 1 => '1'
  | 2 => '2'
  | 3 => '3'
  | 4 => '4'
  | 5 => '5'
  | 6 => '6'
  | 7 => '7'
  | 8 => '8'
  | _ => '9'

/-- Big-endian digit characters of a natural number (empty for 0). -/
def natChars (n : ℕ) : List Char := ((Nat.digits 10 n).reverse).map digitChar

/-- Big-endian digit characters of a natural number, with 0 rendered as one
zero digit. -/
def natCharsNN (n : ℕ) : List Char := if n = 0 then ['0'] else natChars n

/-- The canonical two-decimal money string of a cents value. -/
def moneyChars (cents : ℕ) : List Char :=
  natCharsNN (cents / 100) ++ '.' :: [digitChar (cents % 100 / 10), digitChar (cents % 10)]

/-- An explicit "Total: $a" label line for the cents value a. -/
def totalLabelLine (cents : ℕ) : String := ⟨"Total: $".toList ++ moneyChars cents⟩

end Receipt

namespace Receipt

/-! ### Helper lemmas about the JS string primitives -/

theorem dropWhile_self (p : Char → Bool) (l : List Char) :
    (l.dropWhile p).dropWhile p = l.dropWhile p := by
  induction l with
  | nil => rfl
  | cons c t ih =>
    by_cases h : p c = true
    · simp [List.dropWhile_cons, h, ih]
    · simp [List.dropWhile_cons, h]

theorem dropWhile_append_last (p : Char → Bool) (c : Char) (hc : p c = false)
    (y : List Char) : (y ++ [c]).dropWhile p = y.dropWhile p ++ [c] := by
  induction y with
  | nil => simp [List.dropWhile_cons, hc]
  | cons a t ih =>
    by_cases h : p a = true
    · simp [List.dropWhile_cons, h, ih]
    · simp [List.dropWhile_cons, h]

theorem trimLeftC_trimLeftC (l : List Char) : trimLeftC (trimLeftC l) = trimLeftC l :=
  dropWhile_self _ l

theorem trimRightC_trimRightC (l : List Char) :
    trimRightC (trimRightC l) = trimRightC l := by
  unfold trimRightC
  rw [List.reverse_reverse, dropWhile_self]

theorem trimLeftC_trimRightC (l : List Char) (h : trimLeftC l = l) :
    trimLeftC (trimRightC l) = trimRightC l := by
  cases l with
  | nil => rfl
  | cons c t =>
    have hc : isRegexSpace c = false := by
      by_contra hb
      have hb' : isRegexSpace c = true := by
        cases hx : isRegexSpace c
        · exact absurd hx hb
        · rfl
      unfold trimLeftC at h
      rw [List.dropWhile_cons, if_pos hb'] at h
      have := congrArg List.length h
      have hle := (List.dropWhile_sublist (l := t) isRegexSpace).length_le
      simp at this
      omega
    show trimLeftC (trimRightC (c :: t)) = trimRightC (c :: t)
    unfold trimRightC
    rw [show (c :: t).reverse = t.reverse ++ [c] by simp,
      dropWhile_append_last _ _ hc, List.reverse_append]
    simp only [List.reverse_cons, List.reverse_nil, List.nil_append, List.singleton_append]
    unfold trimLeftC
    rw [List.dropWhile_cons, if_neg (by simp [hc])]

theorem jsTrimC_idem (l : List Char) : jsTrimC (jsTrimC l) = jsTrimC l := by
  unfold jsTrimC
  rw [trimLeftC_trimRightC _ (trimLeftC_trimLeftC l), trimRightC_trimRightC]

theorem jsTrimC_eq_nil_iff (l : List Char) :
    jsTrimC l = [] ↔ ∀ c ∈ l, isRegexSpace c = true := by
  unfold jsTrimC trimRightC trimLeftC
  rw [List.reverse_eq_nil_iff, List.dropWhile_eq_nil_iff]
  constructor
  · intro h c hc
    have hc' : c ∈ List.takeWhile isRegexSpace l ++ List.dropWhile isRegexSpace l := by
      rw [List.takeWhile_append_dropWhile]; exact hc
    rcases List.mem_append.mp hc' with h1 | h2
    · exact List.mem_takeWhile_imp h1
    · exact h _ (List.mem_reverse.mpr h2)
  · intro h c hc
    exact h c ((List.dropWhile_sublist _).subset (List.mem_reverse.mp hc))

theorem jsTrimC_ne_nil {l : List Char} {c : Char} (hc : c ∈ l)
    (hns : isRegexSpace c = false) : jsTrimC l ≠ [] := by
  intro h
  have := (jsTrimC_eq_nil_iff l).mp h c hc
  rw [hns] at this
  exact Bool.false_ne_true this

theorem piecesBy_eq_single (p : Char → Bool) (l : List Char) (hl : l ≠ [])
    (h : ∀ c ∈ l, p c = false) : piecesBy p l = [l] := by
  unfold piecesBy
  rw [List.splitOnP_eq_single _ _ (by intro x hx; simp [h x hx])]
  simp [hl]

theorem rawLines_eq_single (l : List Char) (h : ∀ c ∈ l, c ≠ '\n') :
    rawLines l = [l] := by
  unfold rawLines
  exact List.splitOnP_eq_single _ _ (by intro x hx; simp [h x hx])

theorem alnum_not_space {c : Char} (h : c.isAlphanum = true) : isRegexSpace c = false := by
  cases hx : isRegexSpace c
  · rfl
  · exfalso
    unfold isRegexSpace at hx
    simp only [Bool.or_eq_true, beq_iff_eq, or_assoc] at hx
    rcases hx with h1 | h1 | h1 | h1 | h1 | h1 <;> subst h1 <;> exact absurd h (by decide)

theorem alnum_ne_newline {c : Char} (h : c.isAlphanum = true) : c ≠ '\n' := by
  intro he
  subst he
  exact absurd h (by decide)

theorem alnum_isWordChar {c : Char} (h : c.isAlphanum = true) : isWordChar c = true := by
  unfold isWordChar
  simp [h]

end Receipt

namespace Receipt

/-! ### C10 -/

/-- C10: on the empty string the OCR quality gate returns score exactly 6 with
exactly the issues "Text too short" and "Too few lines detected" (the two
ratio rules never fire, their 0/0 comparisons being false as in JS), and
since 6 is not below 5 the alternate-segmentation OCR retry is not
triggered. -/
theorem c10_empty_text_quality_gate :
    validateOCRQuality "" = ⟨6, ["Text too short", "Too few lines detected"]⟩ ∧
    ocrRetryTriggered "" = false := by
  constructor <;> decide

end Receipt

namespace Receipt

/-! ### C5 -/

/-- A string of at least 20 characters all alphanumeric (hence without
spaces or newlines) fails only the line-count rule of the gate. -/
theorem gate_on_alnum_run (s : String) (h20 : 20 ≤ s.toList.length)
    (hall : ∀ c ∈ s.toList, c.isAlphanum = true) :
    validateOCRQuality s = ⟨9, ["Too few lines detected"]⟩ := by
  have hne : s.toList ≠ [] := by
    intro h
    rw [h] at h20
    simp at h20
  have hfilter : s.toList.filter (fun c => !(isOcrPlain c)) = [] := by
    rw [List.filter_eq_nil_iff]
    intro c hc
    simp [isOcrPlain, hall c hc]
  have hpieces : piecesBy isRegexSpace s.toList = [s.toList] :=
    piecesBy_eq_single _ _ hne (fun c hc => alnum_not_space (hall c hc))
  have hword : ∀ c ∈ s.data, isWordChar c = true := fun c hc => alnum_isWordChar (hall c hc)
  have hvalid : (piecesBy isRegexSpace s.toList).filter (fun w => w.all isWordChar)
      = [s.toList] := by
    rw [hpieces]
    simp [List.filter_cons]
    exact hword
  have hlines : nonBlankLines s.toList = [s.toList] := by
    unfold nonBlankLines
    rw [rawLines_eq_single _ (fun c hc => alnum_ne_newline (hall c hc))]
    have hnn : ¬ jsTrimC s.data = [] := by
      obtain ⟨c, hc⟩ := List.exists_mem_of_ne_nil s.toList hne
      exact jsTrimC_ne_nil hc (alnum_not_space (hall c hc))
    simp [List.filter_cons, hnn]
  have r1 : ¬ ocrTooShort s.toList := by
    unfold ocrTooShort
    omega
  have r2 : ¬ ocrSpecialRatioHigh s.toList := by
    rintro ⟨hz, hlt⟩
    rw [hfilter] at hlt
    simp at hlt
    exact absurd hlt (by norm_num)
  have r3 : ¬ ocrLowWordRatio s.toList := by
    rintro ⟨hz, hlt⟩
    rw [hvalid, hpieces] at hlt
    simp at hlt
    exact absurd hlt (by norm_num)
  have r4 : ocrFewLines s.toList := by
    unfold ocrFewLines
    rw [hlines]
    simp
  unfold validateOCRQuality
  rw [if_neg r1, if_neg r2, if_neg r3, if_pos r4, if_neg r1, if_neg r2, if_neg r3, if_pos r4]
  rfl

set_option maxRecDepth 8000 in
/-- C5 counterexample: a concrete 500-character alphanumeric string with no
spaces scores 9, not strictly below 5 — a single unbroken alphanumeric run
matches the gate's valid-word pattern, so the valid-word-ratio rule does not
fire; only the too-few-lines rule does. -/
theorem c5_counterexample :
    (validateOCRQuality alnum500).score = 9 ∧
    ¬ ((validateOCRQuality alnum500).score < 5) := by
  have h := gate_on_alnum_run alnum500 (by decide) (by decide)
  rw [h]
  exact ⟨rfl, by decide⟩

set_option maxRecDepth 8000 in
/-- C5 (amended): every 500-character all-alphanumeric no-space string scores
exactly 9 — it PASSES the valid-word-ratio rule (an unbroken alphanumeric run
matches the valid-word pattern) and fails only the line-count rule — hence
scores well above 5; and every well-formed multi-line receipt-like string
(at least 3 non-blank lines, at least 20 characters, special-character ratio
at most 0.3, valid-word ratio at least 0.6) scores at least 7. -/
theorem c5_amended :
    (∀ s : String, s.toList.length = 500 → (∀ c ∈ s.toList, c.isAlphanum = true) →
      validateOCRQuality s = ⟨9, ["Too few lines detected"]⟩) ∧
    (∀ s : String, wellFormedReceipt s → 7 ≤ (validateOCRQuality s).score) := by
  constructor
  · intro s hlen hall
    exact gate_on_alnum_run s (by omega) hall
  · intro s hw
    obtain ⟨h20, hlines, hsp, hwr⟩ := hw
    have r1 : ¬ ocrTooShort s.toList := by
      unfold ocrTooShort
      omega
    have r2 : ¬ ocrSpecialRatioHigh s.toList := fun hr => absurd hr.2 (not_lt.mpr hsp)
    have r3 : ¬ ocrLowWordRatio s.toList := fun hr => absurd hr.2 (not_lt.mpr hwr)
    have r4 : ¬ ocrFewLines s.toList := by
      unfold ocrFewLines
      omega
    unfold validateOCRQuality
    rw [if_neg r1, if_neg r2, if_neg r3, if_neg r4]
    norm_num

set_option maxRecDepth 8000 in
/-- Witness for C5 (amended), instantiating both parts: the concrete
500-character alphanumeric string, and a concrete three-line receipt. -/
theorem c5_amended_witness :
    validateOCRQuality alnum500 = ⟨9, ["Too few lines detected"]⟩ ∧
    7 ≤ (validateOCRQuality "WALMART STORE 123\nMILK 3.50\nTOTAL: 5.75").score := by
  constructor
  · exact c5_amended.1 alnum500 (by decide) (by decide)
  · refine c5_amended.2 _ ⟨by decide, by decide, ?_, ?_⟩
    · have h : ("WALMART STORE 123\nMILK 3.50\nTOTAL: 5.75".toList.filter
          (fun c => !(isOcrPlain c))) = [] := by decide
      rw [h]
      norm_num
    · have h1 : ((piecesBy isRegexSpace "WALMART STORE 123\nMILK 3.50\nTOTAL: 5.75".toList).filter
          (fun w => w.all isWordChar)).length = 7 := by decide
      have h2 : (piecesBy isRegexSpace "WALMART STORE 123\nMILK 3.50\nTOTAL: 5.75".toList).length
          = 7 := by decide
      rw [h1, h2]
      norm_num

end Receipt

namespace Receipt

/-! ### Helper lemmas about rounding and the validator legs -/

theorem round2_div100 (k : ℤ) : round2 ((k : ℚ)/100) = (k : ℚ)/100 := by
  unfold round2 jsRound
  have h1 : (k : ℚ)/100 * 100 = (k : ℚ) := by
    field_simp
  rw [h1, add_comm, Int.floor_add_int]
  have h2 : ⌊(1 : ℚ)/2⌋ = 0 := by
    rw [Int.floor_eq_iff]
    constructor <;> norm_num
  rw [h2, zero_add]

theorem round2_intCast (n : ℤ) : round2 ((n : ℚ)) = (n : ℚ) := by
  have h : ((n : ℚ)) = ((100 * n : ℤ) : ℚ)/100 := by
    push_cast
    ring
  rw [h, round2_div100]

theorem amountStep_none_num5 :
    amountStep (fun _ => none) (JsAmount.num 5) = JsAmount.num 5 := by
  show amountClip 5 = JsAmount.num 5
  unfold amountClip
  rw [if_neg (by norm_num), if_neg (by norm_num)]
  have h : round2 (5 : ℚ) = 5 := by
    simpa using round2_intCast 5
  rw [h]

theorem amountClip_cases (q : ℚ) :
    amountClip q = JsAmount.null ∨
      ∃ k : ℤ, 0 ≤ k ∧ k ≤ 1000000 ∧ amountClip q = JsAmount.num ((k : ℚ)/100) := by
  unfold amountClip
  by_cases h1 : q ≤ 0
  · left
    rw [if_pos h1]
  · by_cases h2 : 10000 < q
    · left
      rw [if_neg h1, if_pos h2]
    · right
      refine ⟨jsRound (q * 100), ?_, ?_, ?_⟩
      · unfold jsRound
        apply Int.floor_nonneg.mpr
        nlinarith [not_le.mp h1]
      · unfold jsRound
        have hle : (q * 100 + 1/2 : ℚ) ≤ 1000000 + 1/2 := by
          nlinarith [not_lt.mp h2]
        calc ⌊(q * 100 + 1/2 : ℚ)⌋ ≤ ⌊(1000000 + 1/2 : ℚ)⌋ := Int.floor_le_floor hle
          _ = 1000000 := by
            rw [Int.floor_eq_iff]
            constructor <;> norm_num
      · rw [if_neg h1, if_neg h2]
        rfl

theorem amountStep_second (pf : String → Option ℚ) (a : JsAmount)
    (h : amountStep pf a ≠ JsAmount.num 0) :
    amountStep pf (amountStep pf a) = amountStep pf a := by
  have key : ∀ q : ℚ, amountClip q ≠ JsAmount.num 0 →
      amountStep pf (amountClip q) = amountClip q := by
    intro q hq
    rcases amountClip_cases q with hc | ⟨k, hk0, hk1, hc⟩
    · rw [hc]
      rfl
    · have hkpos : 0 < k := by
        rcases lt_or_eq_of_le hk0 with h' | h'
        · exact h'
        · exfalso
          apply hq
          rw [hc, ← h']
          norm_num
      rw [hc]
      show amountClip ((k : ℚ)/100) = JsAmount.num ((k : ℚ)/100)
      unfold amountClip
      rw [if_neg (not_le.mpr (div_pos (by exact_mod_cast hkpos) (by norm_num))),
        if_neg (not_lt.mpr (by
          rw [div_le_iff₀ (by norm_num : (0:ℚ) < 100)]
          have hcast : (k : ℚ) ≤ 1000000 := by exact_mod_cast hk1
          linarith)), round2_div100]
  cases a with
  | null => rfl
  | nan => rfl
  | num q => exact key q h
  | str s =>
    cases hpf : pf s with
    | none => simp [amountStep, hpf]
    | some q =>
      have hs : amountStep pf (JsAmount.str s) = amountClip q := by
        simp [amountStep, hpf]
      rw [hs] at h ⊢
      exact key q h

theorem jsTrim_idem (s : String) : jsTrim (jsTrim s) = jsTrim s := by
  unfold jsTrim
  congr 1
  exact jsTrimC_idem _

theorem vendorStep_idem (v : Option String) : vendorStep (vendorStep v) = vendorStep v := by
  cases v with
  | none => rfl
  | some s =>
    by_cases h0 : s = ""
    · subst h0
      simp [vendorStep]
    · by_cases h1 : (jsTrim s).length < 2
      · show vendorStep (vendorStep (some s)) = vendorStep (some s)
        rw [show vendorStep (some s) = none by
          simp only [vendorStep]
          rw [if_neg h0, if_pos h1]]
        rfl
      · by_cases h2 : jsLower (jsTrim s) = "null" ∨ jsLower (jsTrim s) = "unknown"
        · rw [show vendorStep (some s) = none by
            simp only [vendorStep]
            rw [if_neg h0, if_neg h1, if_pos h2]]
          rfl
        · have hs : vendorStep (some s) = some (jsTrim s) := by
            show (if s = "" then some s
              else if (jsTrim s).length < 2 then none
              else if jsLower (jsTrim s) = "null" ∨ jsLower (jsTrim s) = "unknown" then none
              else some (jsTrim s)) = some (jsTrim s)
            rw [if_neg h0, if_neg h1, if_neg h2]
          rw [hs]
          have hne : jsTrim s ≠ "" := by
            intro he
            rw [he] at h1
            exact h1 (by decide)
          simp only [vendorStep]
          rw [if_neg hne, jsTrim_idem, if_neg h1, if_neg h2]

theorem dateStep_idem (dv : String → Bool) (d : Option String) :
    dateStep dv (dateStep dv d) = dateStep dv d := by
  cases d with
  | none => rfl
  | some s =>
    by_cases h0 : s = ""
    · subst h0
      simp [dateStep]
    · by_cases h1 : (!(dateRegexOk s)) = true
      · rw [show dateStep dv (some s) = none by
          simp only [dateStep]
          rw [if_neg h0, if_pos h1]]
        rfl
      · by_cases h2 : (!(dv s)) = true
        · rw [show dateStep dv (some s) = none by
            simp only [dateStep]
            rw [if_neg h0, if_neg h1, if_pos h2]]
          rfl
        · have hs : dateStep dv (some s) = some s := by
            show (if s = "" then some s
              else if (!(dateRegexOk s)) = true then none
              else if (!(dv s)) = true then none
              else some s) = some s
            rw [if_neg h0, if_neg h1, if_neg h2]
          rw [hs, hs]

end Receipt

namespace Receipt

/-! ### C2 -/

/-- C2 counterexample: with amount, vendor and date all present and valid,
the recomputed confidence is 0.5 + 0.3 + 0.2 + 0.1 = 1.1, strictly above 1 —
so the recomputed confidence does NOT always lie in [0, 1], and in
particular not when all three fields are present. -/
theorem c2_counterexample :
    ¬ ((validateAndCleanExtractedData (fun _ => none) (fun _ => true)
        ⟨some "Walmart", some "2024-01-15", JsAmount.num 5, 1/2, [], ""⟩).confidence ≤ 1) := by
  have hv : vendorStep (some "Walmart") = some "Walmart" := by decide
  have hd : dateStep (fun _ => true) (some "2024-01-15") = some "2024-01-15" := by decide
  simp only [validateAndCleanExtractedData]
  rw [amountStep_none_num5, hv, hd]
  unfold confRecompute
  rw [if_pos (by norm_num [amountTruthy]), if_pos (by decide), if_pos (by decide)]
  norm_num

/-- C2 (amended): the recomputed confidence always lies in [0.5, 1.1]; in
particular it can exceed 1: when amount, vendor and date are all present
(truthy) after validation it is exactly 1.1 = 0.5 + 0.3 + 0.2 + 0.1, above
the claimed upper bound 1. -/
theorem c2_amended (pf : String → Option ℚ) (dv : String → Bool) (d : ExtractedData) :
    1/2 ≤ (validateAndCleanExtractedData pf dv d).confidence ∧
    (validateAndCleanExtractedData pf dv d).confidence ≤ 11/10 ∧
    ((amountTruthy (amountStep pf d.amount) = true ∧
      strTruthy (vendorStep d.vendor) = true ∧
      strTruthy (dateStep dv d.date) = true) →
      (validateAndCleanExtractedData pf dv d).confidence = 11/10) := by
  simp only [validateAndCleanExtractedData]
  unfold confRecompute
  refine ⟨?_, ?_, ?_⟩
  · split_ifs <;> norm_num
  · split_ifs <;> norm_num
  · rintro ⟨h1, h2, h3⟩
    rw [if_pos h1, if_pos h2, if_pos h3]
    norm_num

/-- Witness for C2 (amended) at a concrete fully-populated record. -/
theorem c2_amended_witness :
    1/2 ≤ (validateAndCleanExtractedData (fun _ => none) (fun _ => true)
        ⟨some "Walmart", some "2024-01-15", JsAmount.num 5, 1/2, [], ""⟩).confidence ∧
    (validateAndCleanExtractedData (fun _ => none) (fun _ => true)
        ⟨some "Walmart", some "2024-01-15", JsAmount.num 5, 1/2, [], ""⟩).confidence ≤ 11/10 ∧
    (validateAndCleanExtractedData (fun _ => none) (fun _ => true)
        ⟨some "Walmart", some "2024-01-15", JsAmount.num 5, 1/2, [], ""⟩).confidence = 11/10 := by
  have h := c2_amended (fun _ => none) (fun _ => true)
    ⟨some "Walmart", some "2024-01-15", JsAmount.num 5, 1/2, [], ""⟩
  refine ⟨h.1, h.2.1, h.2.2 ⟨?_, by decide, by decide⟩⟩
  show amountTruthy (amountStep (fun _ => none) (JsAmount.num 5)) = true
  rw [amountStep_none_num5]
  norm_num [amountTruthy]

end Receipt

namespace Receipt

/-! ### C9 -/

/-- C9 counterexample: the validator is NOT idempotent.  On an amount of
0.004 the first pass rounds to exactly 0 (kept, since only nonpositive
values are rejected BEFORE rounding), while the second pass rejects the 0 to
null — so applying the validator twice differs from applying it once. -/
theorem c9_counterexample :
    validateAndCleanExtractedData (fun _ => none) (fun _ => true)
        (validateAndCleanExtractedData (fun _ => none) (fun _ => true)
          ⟨none, none, JsAmount.num (1/250), 1/2, [], ""⟩) ≠
      validateAndCleanExtractedData (fun _ => none) (fun _ => true)
        ⟨none, none, JsAmount.num (1/250), 1/2, [], ""⟩ := by
  have h1 : amountStep (fun _ => none) (JsAmount.num (1/250)) = JsAmount.num 0 := by
    show amountClip (1/250) = JsAmount.num 0
    unfold amountClip
    rw [if_neg (by norm_num), if_neg (by norm_num)]
    have hr : round2 (1/250 : ℚ) = 0 := by
      unfold round2 jsRound
      have hf : ⌊(1/250 : ℚ) * 100 + 1/2⌋ = 0 := by
        rw [Int.floor_eq_iff]
        constructor <;> norm_num
      rw [hf]
      norm_num
    rw [hr]
  have h2 : amountStep (fun _ => none) (JsAmount.num 0) = JsAmount.null := by
    show amountClip 0 = JsAmount.null
    unfold amountClip
    rw [if_pos le_rfl]
  intro heq
  have hamt := congrArg ExtractedData.amount heq
  simp only [validateAndCleanExtractedData] at hamt
  rw [h1, h2] at hamt
  exact JsAmount.noConfusion hamt

/-- C9 (amended): the validator is idempotent on every input except those
whose validated amount is exactly 0 (a coerced amount in the open interval
(0, 0.005), which rounds to 0 on the first pass and is rejected to null on
the second): whenever the first pass's amount is not the number 0, a second
pass returns the first pass's output unchanged. -/
theorem c9_amended (pf : String → Option ℚ) (dv : String → Bool) (d : ExtractedData)
    (h : (validateAndCleanExtractedData pf dv d).amount ≠ JsAmount.num 0) :
    validateAndCleanExtractedData pf dv (validateAndCleanExtractedData pf dv d) =
      validateAndCleanExtractedData pf dv d := by
  have h' : amountStep pf d.amount ≠ JsAmount.num 0 := by
    simpa only [validateAndCleanExtractedData] using h
  have ha := amountStep_second pf d.amount h'
  simp only [validateAndCleanExtractedData]
  rw [vendorStep_idem, dateStep_idem, ha]

/-- Witness for C9 (amended) at a concrete record whose validated amount is
nonzero. -/
theorem c9_amended_witness :
    validateAndCleanExtractedData (fun _ => none) (fun _ => true)
        (validateAndCleanExtractedData (fun _ => none) (fun _ => true)
          ⟨some "Walmart", some "2024-01-15", JsAmount.num 5, 1/2, [], ""⟩) =
      validateAndCleanExtractedData (fun _ => none) (fun _ => true)
        ⟨some "Walmart", some "2024-01-15", JsAmount.num 5, 1/2, [], ""⟩ := by
  apply c9_amended
  simp only [validateAndCleanExtractedData]
  rw [amountStep_none_num5]
  intro h
  have := JsAmount.num.inj h
  norm_num at this

end Receipt

namespace Receipt

/-! ### C1 -/

/-- The materializer returns null whenever the expense insert throws,
whatever the input (the local catch of lines 627-631). -/
theorem createExpense_insert_error (resolveCategory : String → String)
    (today newId : String) (jsDateParse : String → Option String)
    (toNum : String → JsNum) (err : String) (d : ExtractedData) (receiptId : String) :
    createExpenseFromExtractedData resolveCategory today newId jsDateParse toNum
      (.error err) d receiptId = none := by
  unfold createExpenseFromExtractedData
  by_cases h : (!(amountTruthy d.amount) || jsLeZero toNum d.amount) = true
  · rw [if_pos h]
  · rw [if_neg h]

/-- C1: the expense materializer creates no expense when the amount field is
absent (null) or failed validation (nonpositive); and when the amount is a
valid positive number it always creates an expense (the insert succeeding),
where an absent vendor yields description "Receipt purchase" and vendor
"Unknown", and an absent date yields the current date. -/
theorem c1_materializer_gate (resolveCategory : String → String) (today newId : String)
    (jsDateParse : String → Option String) (toNum : String → JsNum)
    (d : ExtractedData) (receiptId : String) :
    ((d.amount = JsAmount.null ∨ ∃ q, d.amount = JsAmount.num q ∧ q ≤ 0) →
      createExpenseFromExtractedData resolveCategory today newId jsDateParse toNum
        (.ok ()) d receiptId = none) ∧
    (∀ q : ℚ, d.amount = JsAmount.num q → 0 < q →
      ∃ e : Expense,
        createExpenseFromExtractedData resolveCategory today newId jsDateParse toNum
          (.ok ()) d receiptId = some e ∧
        (d.vendor = none → e.description = "Receipt purchase" ∧ e.vendor = "Unknown") ∧
        (d.date = none → e.date = today)) := by
  constructor
  · intro h
    rcases h with h | ⟨q, hq, hle⟩
    · unfold createExpenseFromExtractedData
      rw [if_pos (by rw [h]; rfl)]
    · unfold createExpenseFromExtractedData
      rw [if_pos (by
        rw [hq]
        show (!(amountTruthy (JsAmount.num q)) || jsLeZero toNum (JsAmount.num q)) = true
        simp [amountTruthy, jsLeZero, hle])]
  · intro q hq hpos
    have hcond : (!(amountTruthy d.amount) || jsLeZero toNum d.amount) = false := by
      rw [hq]
      show (!(amountTruthy (JsAmount.num q)) || jsLeZero toNum (JsAmount.num q)) = false
      simp [amountTruthy, jsLeZero, hpos.ne', not_le.mpr hpos]
    unfold createExpenseFromExtractedData
    rw [hcond]
    refine ⟨_, rfl, fun hv => ?_, fun hd => ?_⟩
    · constructor
      · show (if strTruthy d.vendor = true then "Purchase at " ++ (d.vendor).getD ""
            else "Receipt purchase") = "Receipt purchase"
        rw [hv]
        rfl
      · show (if (if strTruthy d.vendor = true then (d.vendor).getD "" else "Unknown") ≠ "Unknown" ∧
              isInvalidVendor (if strTruthy d.vendor = true then (d.vendor).getD "" else "Unknown")
                = true
            then "Unknown"
            else if strTruthy d.vendor = true then (d.vendor).getD "" else "Unknown") = "Unknown"
        rw [hv]
        show (if ("Unknown" ≠ "Unknown" ∧ isInvalidVendor "Unknown" = true)
            then "Unknown" else "Unknown") = "Unknown"
        rw [if_neg (fun hx => hx.1 rfl)]
    · show (if strTruthy d.date = true then formatDate jsDateParse today ((d.date).getD "")
          else today) = today
      rw [hd]
      rfl

/-- Witness for C1 at two concrete inputs: an absent amount yields no
expense; a valid amount 5 with vendor and date absent yields an expense with
all three fallbacks. -/
theorem c1_materializer_gate_witness :
    createExpenseFromExtractedData (fun _ => "cat-1") "2026-02-03" "id-1" (fun _ => none)
        (fun _ => JsNum.nan) (.ok ()) ⟨none, none, JsAmount.null, 1/2, [], ""⟩ "r-1" = none ∧
    ∃ e : Expense,
      createExpenseFromExtractedData (fun _ => "cat-1") "2026-02-03" "id-1" (fun _ => none)
        (fun _ => JsNum.nan) (.ok ()) ⟨none, none, JsAmount.num 5, 1/2, [], ""⟩ "r-1" = some e ∧
      e.description = "Receipt purchase" ∧ e.vendor = "Unknown" ∧ e.date = "2026-02-03" := by
  constructor
  · exact (c1_materializer_gate (fun _ => "cat-1") "2026-02-03" "id-1" (fun _ => none)
      (fun _ => JsNum.nan) ⟨none, none, JsAmount.null, 1/2, [], ""⟩ "r-1").1 (Or.inl rfl)
  · obtain ⟨e, he, hfall, hdate⟩ := (c1_materializer_gate (fun _ => "cat-1") "2026-02-03" "id-1"
      (fun _ => none) (fun _ => JsNum.nan)
      ⟨none, none, JsAmount.num 5, 1/2, [], ""⟩ "r-1").2 5 rfl (by norm_num)
    exact ⟨e, he, (hfall rfl).1, (hfall rfl).2, hdate rfl⟩

end Receipt

namespace Receipt

/-! ### C7 -/

/-- C7 counterexample: with the job-results write succeeding and the expense
insert failing, the job ends COMPLETED with no expense row — the persistence
error on the derived expense record is swallowed by the materializer's local
catch and is not surfaced as a job failure. -/
theorem c7_counterexample :
    processReceiptPersistence (.ok "TOTAL: $5.00")
        (fun _ => ⟨none, none, JsAmount.num 5, 1/2, [], ""⟩)
        (.ok ()) (fun _ => "cat-1") "2026-02-03" "id-1" (fun _ => none) (fun _ => JsNum.nan)
        (.error "disk full") "r-1" = (JobStatus.completed, none) ∧
    JobStatus.completed ≠ JobStatus.failed := by
  constructor
  · show (JobStatus.completed,
        createExpenseFromExtractedData (fun _ => "cat-1") "2026-02-03" "id-1" (fun _ => none)
          (fun _ => JsNum.nan) (.error "disk full")
          ⟨none, none, JsAmount.num 5, 1/2, [], ""⟩ "r-1") = (JobStatus.completed, none)
    rw [createExpense_insert_error]
  · intro h
    exact JobStatus.noConfusion h

/-- C7 (amended): a persistence error while writing the job's results is
surfaced as a job failure (status failed, no completion); but a persistence
error while writing the derived expense record is caught inside the
materializer — the job still ends completed, merely with no expense row. -/
theorem c7_amended (text : String) (extract : String → ExtractedData)
    (resolveCategory : String → String) (today newId : String)
    (jsDateParse : String → Option String) (toNum : String → JsNum)
    (ins : Except String Unit) (receiptId : String) :
    (∀ err : String,
      processReceiptPersistence (.ok text) extract (.error err) resolveCategory today newId
        jsDateParse toNum ins receiptId = (.failed, none)) ∧
    (∀ errExp : String,
      (processReceiptPersistence (.ok text) extract (.ok ()) resolveCategory today newId
        jsDateParse toNum (.error errExp) receiptId).1 = .completed ∧
      (processReceiptPersistence (.ok text) extract (.ok ()) resolveCategory today newId
        jsDateParse toNum (.error errExp) receiptId).2 = none) := by
  constructor
  · intro err
    rfl
  · intro errExp
    exact ⟨rfl, createExpense_insert_error resolveCategory today newId jsDateParse toNum
      errExp (extract text) receiptId⟩

/-- Witness for C7 (amended) at concrete inputs. -/
theorem c7_amended_witness :
    processReceiptPersistence (.ok "TOTAL: $5.00")
        (fun _ => ⟨none, none, JsAmount.num 5, 1/2, [], ""⟩) (.error "disk full")
        (fun _ => "cat-1") "2026-02-03" "id-1" (fun _ => none) (fun _ => JsNum.nan)
        (.ok ()) "r-1" = (JobStatus.failed, none) ∧
    (processReceiptPersistence (.ok "TOTAL: $5.00")
        (fun _ => ⟨none, none, JsAmount.num 5, 1/2, [], ""⟩) (.ok ())
        (fun _ => "cat-1") "2026-02-03" "id-1" (fun _ => none) (fun _ => JsNum.nan)
        (.error "disk full") "r-1").1 = JobStatus.completed := by
  constructor
  · exact (c7_amended "TOTAL: $5.00" (fun _ => ⟨none, none, JsAmount.num 5, 1/2, [], ""⟩)
      (fun _ => "cat-1") "2026-02-03" "id-1" (fun _ => none) (fun _ => JsNum.nan)
      (.ok ()) "r-1").1 "disk full"
  · exact ((c7_amended "TOTAL: $5.00" (fun _ => ⟨none, none, JsAmount.num 5, 1/2, [], ""⟩)
      (fun _ => "cat-1") "2026-02-03" "id-1" (fun _ => none) (fun _ => JsNum.nan)
      (.ok ()) "r-1").2 "disk full").1

end Receipt

namespace Receipt

/-! ### C6 -/

/-- C6: when the collaborator is unavailable (useLLM false), returns nothing
parseable (null), or throws (timeout, HTTP error), the pre-validation
extraction result IS trySimpleExtraction applied to the whole document — a
full-document strategy switch, never a field-by-field merge — and that
degraded path carries confidence 0.3 before final validation; when the
collaborator yields any structured object the result carries base confidence
0.9 (with the object's non-null fields taken as-is). -/
theorem c6_delegated_fallback (jsDateParse : String → Option String)
    (llm : Except String (Option LLMFields)) (useLLM : Bool) (ocrText : String) :
    ((useLLM = false ∨ llm = .ok none ∨ ∃ err, llm = .error err) →
      extractReceiptDataWithGemmaPre jsDateParse llm useLLM ocrText =
        trySimpleExtraction jsDateParse ocrText ∧
      (extractReceiptDataWithGemmaPre jsDateParse llm useLLM ocrText).confidence = 3/10) ∧
    (∀ f : LLMFields, useLLM = true → llm = .ok (some f) →
      (extractReceiptDataWithGemmaPre jsDateParse llm useLLM ocrText).confidence = 9/10 ∧
      (extractReceiptDataWithGemmaPre jsDateParse llm useLLM ocrText).vendor = f.vendor ∧
      (extractReceiptDataWithGemmaPre jsDateParse llm useLLM ocrText).date = f.date) := by
  constructor
  · intro h
    have he : extractReceiptDataWithGemmaPre jsDateParse llm useLLM ocrText =
        trySimpleExtraction jsDateParse ocrText := by
      rcases h with h | h | ⟨err, h⟩
      · rw [h]
        rfl
      · rw [h]
        cases useLLM <;> rfl
      · rw [h]
        cases useLLM <;> rfl
    rw [he]
    exact ⟨rfl, rfl⟩
  · intro f hu hl
    rw [hu, hl]
    exact ⟨rfl, rfl, rfl⟩

/-- Witness for C6 at concrete inputs: a null collaborator result makes the
pipeline adopt the simple fallback wholesale (confidence 0.3); a structured
collaborator result yields confidence 0.9. -/
theorem c6_delegated_fallback_witness :
    (extractReceiptDataWithGemmaPre (fun _ => none) (.ok none) true
        "STORE ONE\nTOTAL: $12.50" =
      trySimpleExtraction (fun _ => none) "STORE ONE\nTOTAL: $12.50" ∧
     (extractReceiptDataWithGemmaPre (fun _ => none) (.ok none) true
        "STORE ONE\nTOTAL: $12.50").confidence = 3/10) ∧
    (extractReceiptDataWithGemmaPre (fun _ => none)
        (.ok (some ⟨some "Walmart", some "2024-01-15", some (JsNum.num 5)⟩)) true
        "receipt text").confidence = 9/10 := by
  constructor
  · exact (c6_delegated_fallback (fun _ => none) (.ok none) true
      "STORE ONE\nTOTAL: $12.50").1 (Or.inr (Or.inl rfl))
  · exact ((c6_delegated_fallback (fun _ => none)
      (.ok (some ⟨some "Walmart", some "2024-01-15", some (JsNum.num 5)⟩)) true
      "receipt text").2 ⟨some "Walmart", some "2024-01-15", some (JsNum.num 5)⟩ rfl rfl).1

end Receipt

namespace Receipt

/-! ### C8 -/

theorem pagesCombined_all_none (pages : List PageOutcome) :
    ∀ n, (∀ p ∈ pages, pageText p = none) → pagesCombined n pages = "" := by
  induction pages with
  | nil => intro n _; rfl
  | cons p rest ih =>
    intro n h
    show (match pageText p with
      | some t => "--- Page " ++ toString n ++ " ---\n" ++ t ++ "\n\n"
      | none => "") ++ pagesCombined (n + 1) rest = ""
    rw [h p (List.mem_cons_self _ _), ih (n + 1) (fun x hx => h x (List.mem_cons_of_mem _ hx))]
    rfl

theorem pagesCombined_has_ink (pages : List PageOutcome) :
    ∀ n, (∃ p ∈ pages, pageText p ≠ none) →
      ∃ c ∈ (pagesCombined n pages).data, isRegexSpace c = false := by
  induction pages with
  | nil =>
    rintro n ⟨p, hp, _⟩
    exact absurd hp (List.not_mem_nil p)
  | cons p rest ih =>
    rintro n ⟨q, hq, hqt⟩
    have hstep : pagesCombined n (p :: rest) =
        (match pageText p with
          | some t => "--- Page " ++ toString n ++ " ---\n" ++ t ++ "\n\n"
          | none => "") ++ pagesCombined (n + 1) rest := rfl
    rcases List.mem_cons.mp hq with rfl | hq'
    · cases hpt : pageText q with
      | none => exact absurd hpt hqt
      | some t =>
        refine ⟨'-', ?_, by decide⟩
        rw [hstep, hpt, String.data_append]
        apply List.mem_append_left
        rw [String.data_append, String.data_append, String.data_append]
        apply List.mem_append_left
        apply List.mem_append_left
        apply List.mem_append_left
        apply List.mem_append_left
        decide
    · obtain ⟨c, hc, hcs⟩ := ih (n + 1) ⟨q, hq', hqt⟩
      refine ⟨c, ?_, hcs⟩
      rw [hstep, String.data_append]
      exact List.mem_append_right _ hc

theorem jsTrim_eq_empty_iff (s : String) :
    jsTrim s = "" ↔ ∀ c ∈ s.data, isRegexSpace c = true := by
  constructor
  · intro h
    have hl : jsTrimC s.data = [] := congrArg String.data h
    exact fun c hc => (jsTrimC_eq_nil_iff s.data).mp hl c hc
  · intro h
    show (⟨jsTrimC s.data⟩ : String) = ""
    rw [(jsTrimC_eq_nil_iff s.data).mpr h]

/-- C8 counterexample: the Electron PDF resolver, on a PDF with no usable
text layer whose (only processed) first page fails to rasterize, SUCCEEDS
with the placeholder text "PDF processing failed - please try with an image
file" instead of failing with a no-extractable-text error; it also never
skips to further pages. -/
theorem c8_counterexample :
    processPDFelectron "receipt.pdf" "" PageOutcome.convertFail =
      .ok (pdfFailureText, "receipt.pdf") := by
  unfold processPDFelectron
  rw [if_neg (fun hx => hx.1 rfl)]

/-- C8 (amended): the claim holds for the Express PDF resolver: when the
embedded text layer is unusable (at most 50 trimmed characters) and no page
yields OCR text, it fails with the explicit no-extractable-text error; and
when at least one page yields text it succeeds carrying exactly the
surviving pages' concatenated text — a failing page is skipped.  The
Electron resolver instead processes only page 1 and converts every failure
into a successful result carrying placeholder text (see the
counterexample). -/
theorem c8_amended (pdfPath directText : String) (pages : List PageOutcome)
    (hdirect : (jsTrim directText).length ≤ 50) :
    ((∀ p ∈ pages, pageText p = none) →
      processPDFserver pdfPath directText pages =
        .error "No text could be extracted from any page of the PDF") ∧
    ((∃ p ∈ pages, pageText p ≠ none) →
      ∃ img, processPDFserver pdfPath directText pages =
        .ok (pagesCombined 1 pages, img)) := by
  have hcond : ¬ (directText ≠ "" ∧ 50 < (jsTrim directText).length) := by
    rintro ⟨_, hgt⟩
    omega
  constructor
  · intro h
    unfold processPDFserver
    rw [if_neg hcond, pagesCombined_all_none pages 1 h, if_pos (by decide)]
  · intro hex
    unfold processPDFserver
    rw [if_neg hcond]
    obtain ⟨c, hc, hcs⟩ := pagesCombined_has_ink pages 1 hex
    rw [if_neg (by
      rw [jsTrim_eq_empty_iff]
      intro hall
      rw [hall c hc] at hcs
      exact Bool.noConfusion hcs)]
    exact ⟨_, rfl⟩

/-- Witness for C8 (amended): a two-page scan-only PDF whose pages both fail
yields the explicit error; one whose first page fails but whose second page
yields text succeeds with exactly the second page's marked text. -/
theorem c8_amended_witness :
    processPDFserver "receipt.pdf" "" [PageOutcome.convertFail, PageOutcome.convertFail] =
      .error "No text could be extracted from any page of the PDF" ∧
    ∃ img, processPDFserver "receipt.pdf" ""
        [PageOutcome.convertFail, PageOutcome.page "p2.png" (.ok "TOTAL: $5.00")] =
      .ok (pagesCombined 1
        [PageOutcome.convertFail, PageOutcome.page "p2.png" (.ok "TOTAL: $5.00")], img) := by
  constructor
  · refine (c8_amended "receipt.pdf" "" _ (by decide)).1 ?_
    intro p hp
    rcases List.mem_cons.mp hp with rfl | hp2
    · rfl
    · rcases List.mem_cons.mp hp2 with rfl | hp3
      · rfl
      · exact absurd hp3 (List.not_mem_nil p)
  · refine (c8_amended "receipt.pdf" "" _ (by decide)).2 ?_
    refine ⟨PageOutcome.page "p2.png" (.ok "TOTAL: $5.00"), by simp, by decide⟩

end Receipt

namespace Receipt

/-! ### Scanning and selection lemmas shared by C3 and C4 -/

theorem scanLineStep_fst (st : Option ℚ × List PriceEntry) (line : String) :
    (scanLineStep st line).1 =
      match lineTotalContribution line with
      | some t => some t
      | none => st.1 := by
  unfold scanLineStep lineTotalContribution
  by_cases hb : isBoilerplate (cleanOf line) = true
  · rw [if_pos hb, if_pos hb]
  · rw [if_neg hb, if_neg hb]
    cases hf : findTotalMatch line.toList with
    | none => rfl
    | some t =>
      show (if 0 < t ∧ t < 10000 then some t else st.1) =
        (match (if 0 < t ∧ t < 10000 then some t else none) with
          | some q => some q
          | none => st.1)
      by_cases hr : 0 < t ∧ t < 10000
      · rw [if_pos hr, if_pos hr]
      · rw [if_neg hr, if_neg hr]

theorem scanLineStep_snd (st : Option ℚ × List PriceEntry) (line : String) :
    (scanLineStep st line).2 =
      if isBoilerplate (cleanOf line) then st.2
      else st.2 ++
        (((findMoneyAmounts line.toList).filter fun p =>
            decide (0 < p) && decide (p < 10000)).map
          fun p => PriceEntry.mk p (isLikelyTotalLine (cleanOf line))) := by
  unfold scanLineStep
  by_cases hb : isBoilerplate (cleanOf line) = true
  · rw [if_pos hb, if_pos hb]
  · rw [if_neg hb, if_neg hb]

theorem foldl_scan_fst_none (ls : List String) :
    ∀ st : Option ℚ × List PriceEntry, (∀ l ∈ ls, lineTotalContribution l = none) →
      (List.foldl scanLineStep st ls).1 = st.1 := by
  induction ls with
  | nil => intro st _; rfl
  | cons a t ih =>
    intro st h
    rw [List.foldl_cons, ih _ (fun x hx => h x (List.mem_cons_of_mem _ hx)),
      scanLineStep_fst, h a (List.mem_cons_self _ _)]

theorem scanLines_fst_of_unique (pre post : List String) (line : String) (a : ℚ)
    (hline : lineTotalContribution line = some a)
    (hpost : ∀ l ∈ post, lineTotalContribution l = none) :
    (scanLines (pre ++ line :: post)).1 = some a := by
  unfold scanLines
  rw [List.foldl_append, List.foldl_cons, foldl_scan_fst_none post _ hpost,
    scanLineStep_fst, hline]

theorem mem_insertDesc {x e : PriceEntry} {l : List PriceEntry} :
    x ∈ insertDesc e l ↔ x = e ∨ x ∈ l := by
  induction l with
  | nil => simp [insertDesc]
  | cons b t ih =>
    unfold insertDesc
    by_cases h : b.price ≤ e.price
    · rw [if_pos h]
      simp [List.mem_cons]
    · rw [if_neg h]
      simp only [List.mem_cons, ih]
      tauto

theorem mem_sortDesc {x : PriceEntry} {l : List PriceEntry} : x ∈ sortDesc l ↔ x ∈ l := by
  induction l with
  | nil => simp [sortDesc]
  | cons b t ih =>
    show x ∈ insertDesc b (sortDesc t) ↔ _
    rw [mem_insertDesc]
    simp [ih, List.mem_cons]

theorem sortDesc_ne_nil {l : List PriceEntry} (h : l ≠ []) : sortDesc l ≠ [] := by
  cases l with
  | nil => exact absurd rfl h
  | cons b t =>
    show insertDesc b (sortDesc t) ≠ []
    cases hs : sortDesc t with
    | nil => simp [insertDesc]
    | cons c u =>
      unfold insertDesc
      by_cases hc : c.price ≤ b.price
      · rw [if_pos hc]
        simp
      · rw [if_neg hc]
        simp

theorem sortDesc_head_max (l : List PriceEntry) :
    ∀ top rest, sortDesc l = top :: rest → ∀ x ∈ l, x.price ≤ top.price := by
  induction l with
  | nil =>
    intro top rest h
    exact absurd h (by simp [sortDesc])
  | cons b t ih =>
    intro top rest h x hx
    cases hs : sortDesc t with
    | nil =>
      rw [show sortDesc (b :: t) = insertDesc b (sortDesc t) from rfl, hs] at h
      have hb : b = top := by
        have := h
        unfold insertDesc at this
        injection this with h1 _
      rcases List.mem_cons.mp hx with rfl | hxt
      · rw [hb]
      · exact absurd (mem_sortDesc.mpr hxt) (by rw [hs]; exact List.not_mem_nil x)
    | cons c u =>
      rw [show sortDesc (b :: t) = insertDesc b (sortDesc t) from rfl, hs] at h
      have hcmax : ∀ y ∈ t, y.price ≤ c.price := ih c u hs
      unfold insertDesc at h
      by_cases hcb : c.price ≤ b.price
      · rw [if_pos hcb] at h
        injection h with h1 _
        rcases List.mem_cons.mp hx with rfl | hxt
        · rw [h1]
        · calc x.price ≤ c.price := hcmax x hxt
            _ ≤ b.price := hcb
            _ = top.price := by rw [h1]
      · rw [if_neg hcb] at h
        injection h with h1 _
        rcases List.mem_cons.mp hx with rfl | hxt
        · rw [← h1]
          exact le_of_lt (not_le.mp hcb)
        · rw [← h1]
          exact hcmax x hxt

end Receipt

namespace Receipt

/-! ### C4 -/

/-- C4: on a document with no explicit total-label match and no detected
amount on a likely-total line, the heuristic amount selection returns the
maximum of all detected in-range money amounts. -/
theorem c4_largest_amount (lines : List String)
    (hnoexp : (scanLines lines).1 = none)
    (hnolikely : ∀ e ∈ (scanLines lines).2, e.likelyTotal = false)
    (hne : (scanLines lines).2 ≠ []) :
    ∃ m : ℚ, extractAmountLines lines = some m ∧
      (∃ e ∈ (scanLines lines).2, e.price = m) ∧
      ∀ e ∈ (scanLines lines).2, e.price ≤ m := by
  cases hs : sortDesc (scanLines lines).2 with
  | nil => exact absurd hs (sortDesc_ne_nil hne)
  | cons top rest =>
    have hfilter : (top :: rest).filter (fun e => e.likelyTotal) = [] := by
      rw [List.filter_eq_nil_iff]
      intro e he
      have hm : e ∈ (scanLines lines).2 := mem_sortDesc.mp (hs ▸ he)
      simp [hnolikely e hm]
    refine ⟨top.price, ?_, ⟨top, mem_sortDesc.mp (hs ▸ List.mem_cons_self top rest), rfl⟩,
      fun e he => sortDesc_head_max _ top rest hs e he⟩
    unfold extractAmountLines
    rw [hnoexp]
    show (match sortDesc (scanLines lines).2 with
      | [] => none
      | top :: rest =>
        match (top :: rest).filter (fun e => e.likelyTotal) with
        | lt :: _ => some lt.price
        | [] => some top.price) = some top.price
    rw [hs]
    show (match (top :: rest).filter (fun e => e.likelyTotal) with
      | lt :: _ => some lt.price
      | [] => some top.price) = some top.price
    rw [hfilter]

/-- Witness for C4: a two-item document with no label line and no
likely-total line; the selection yields the larger of the two prices. -/
theorem c4_largest_amount_witness :
    ∃ m : ℚ, extractAmountLines ["MILK $3.50", "BREAD $2.25"] = some m ∧
      (∃ e ∈ (scanLines ["MILK $3.50", "BREAD $2.25"]).2, e.price = m) ∧
      ∀ e ∈ (scanLines ["MILK $3.50", "BREAD $2.25"]).2, e.price ≤ m := by
  have hv1 : parseMoneyVal "3.50".toList = 7/2 := by
    have hA : digitsToNat (("3.50".toList.filter (fun c => c != ',')).takeWhile
        (fun c => c != '.')) = 3 := by decide
    have hB : digitsToNat ((("3.50".toList.filter (fun c => c != ',')).dropWhile
        (fun c => c != '.')).drop 1) = 50 := by decide
    unfold parseMoneyVal
    rw [hA, hB]
    norm_num
  have hv2 : parseMoneyVal "2.25".toList = 9/4 := by
    have hA : digitsToNat (("2.25".toList.filter (fun c => c != ',')).takeWhile
        (fun c => c != '.')) = 2 := by decide
    have hB : digitsToNat ((("2.25".toList.filter (fun c => c != ',')).dropWhile
        (fun c => c != '.')).drop 1) = 25 := by decide
    unfold parseMoneyVal
    rw [hA, hB]
    norm_num
  have hf1 : findTotalMatch "MILK $3.50".toList = none := by decide
  have hf2 : findTotalMatch "BREAD $2.25".toList = none := by decide
  have hm1 : findMoneyAmounts "MILK $3.50".toList = [parseMoneyVal "3.50".toList] := rfl
  have hm2 : findMoneyAmounts "BREAD $2.25".toList = [parseMoneyVal "2.25".toList] := rfl
  have hfil1 : List.filter (fun p => decide (0 < p) && decide (p < 10000)) [(7/2 : ℚ)]
      = [(7/2 : ℚ)] := by
    rw [List.filter_cons, if_pos (by norm_num)]
    rfl
  have hfil2 : List.filter (fun p => decide (0 < p) && decide (p < 10000)) [(9/4 : ℚ)]
      = [(9/4 : ℚ)] := by
    rw [List.filter_cons, if_pos (by norm_num)]
    rfl
  have hst1 : scanLineStep (none, []) "MILK $3.50" =
      ((none : Option ℚ), [PriceEntry.mk (7/2) false]) := by
    rw [Prod.ext_iff]
    refine ⟨?_, ?_⟩
    · rw [scanLineStep_fst]
      rw [show lineTotalContribution "MILK $3.50" = none from by
        unfold lineTotalContribution
        rw [if_neg (by decide), hf1]]
    · rw [scanLineStep_snd, if_neg (by decide), hm1, hv1, hfil1]
      rw [show isLikelyTotalLine (cleanOf "MILK $3.50") = false from by decide]
      rfl
  have hst2 : scanLineStep ((none : Option ℚ), [PriceEntry.mk (7/2) false]) "BREAD $2.25" =
      ((none : Option ℚ), [PriceEntry.mk (7/2) false, PriceEntry.mk (9/4) false]) := by
    rw [Prod.ext_iff]
    refine ⟨?_, ?_⟩
    · rw [scanLineStep_fst]
      rw [show lineTotalContribution "BREAD $2.25" = none from by
        unfold lineTotalContribution
        rw [if_neg (by decide), hf2]]
    · rw [scanLineStep_snd, if_neg (by decide), hm2, hv2, hfil2]
      rw [show isLikelyTotalLine (cleanOf "BREAD $2.25") = false from by decide]
      rfl
  have hscan : scanLines ["MILK $3.50", "BREAD $2.25"] =
      ((none : Option ℚ), [PriceEntry.mk (7/2) false, PriceEntry.mk (9/4) false]) := by
    unfold scanLines
    rw [List.foldl_cons, hst1, List.foldl_cons, hst2, List.foldl_nil]
  refine c4_largest_amount _ ?_ ?_ ?_
  · rw [hscan]
  · intro e he
    rw [hscan] at he
    rcases List.mem_cons.mp he with rfl | he2
    · rfl
    · rcases List.mem_cons.mp he2 with rfl | he3
      · rfl
      · exact absurd he3 (List.not_mem_nil e)
  · rw [hscan]
    exact List.cons_ne_nil _ _

end Receipt

namespace Receipt

/-! ### Digit-character and money-string evaluation lemmas for C3 -/

theorem digitChar_isDigit : ∀ d : ℕ, (digitChar d).isDigit = true
  | 0 => rfl
  | 1 => rfl
  | 2 => rfl
  | 3 => rfl
  | 4 => rfl
  | 5 => rfl
  | 6 => rfl
  | 7 => rfl
  | 8 => rfl
  | _ + 9 => rfl

theorem digitVal_digitChar (d : ℕ) (h : d < 10) : digitVal (digitChar d) = d := by
  interval_cases d <;> rfl

theorem isDigit_not_space {c : Char} (h : c.isDigit = true) : isRegexSpace c = false := by
  cases hx : isRegexSpace c
  · rfl
  · exfalso
    unfold isRegexSpace at hx
    simp only [Bool.or_eq_true, beq_iff_eq, or_assoc] at hx
    rcases hx with h1 | h1 | h1 | h1 | h1 | h1 <;> subst h1 <;> exact absurd h (by decide)

theorem isDigit_ne_comma {c : Char} (h : c.isDigit = true) : (c != ',') = true := by
  cases hx : (c != ',')
  · exfalso
    rw [bne_eq_false_iff_eq] at hx
    subst hx
    exact absurd h (by decide)
  · rfl

theorem isDigit_ne_dot {c : Char} (h : c.isDigit = true) : (c != '.') = true := by
  cases hx : (c != '.')
  · exfalso
    rw [bne_eq_false_iff_eq] at hx
    subst hx
    exact absurd h (by decide)
  · rfl

theorem digitChar_toLower : ∀ d : ℕ, (digitChar d).toLower = digitChar d
  | 0 => rfl
  | 1 => rfl
  | 2 => rfl
  | 3 => rfl
  | 4 => rfl
  | 5 => rfl
  | 6 => rfl
  | 7 => rfl
  | 8 => rfl
  | _ + 9 => rfl

theorem mem_natCharsNN_exists {n : ℕ} {c : Char} (hc : c ∈ natCharsNN n) :
    ∃ d, c = digitChar d := by
  unfold natCharsNN at hc
  by_cases h : n = 0
  · rw [if_pos h] at hc
    simp at hc
    exact ⟨0, hc⟩
  · rw [if_neg h] at hc
    unfold natChars at hc
    obtain ⟨d, _, rfl⟩ := List.mem_map.mp hc
    exact ⟨d, rfl⟩

theorem mem_natCharsNN_isDigit {n : ℕ} {c : Char} (hc : c ∈ natCharsNN n) :
    c.isDigit = true := by
  obtain ⟨d, rfl⟩ := mem_natCharsNN_exists hc
  exact digitChar_isDigit d

theorem natCharsNN_ne_nil (n : ℕ) : natCharsNN n ≠ [] := by
  unfold natCharsNN natChars
  by_cases h : n = 0
  · rw [if_pos h]
    exact List.cons_ne_nil _ _
  · rw [if_neg h]
    intro hx
    rw [List.map_eq_nil_iff, List.reverse_eq_nil_iff] at hx
    exact Nat.digits_ne_nil_iff_ne_zero.mpr h hx

theorem natCharsNN_length_le (n : ℕ) (h : n ≤ 9999) : (natCharsNN n).length ≤ 4 := by
  unfold natCharsNN natChars
  by_cases h0 : n = 0
  · rw [if_pos h0]
    simp
  · rw [if_neg h0]
    simp only [List.length_map, List.length_reverse]
    by_contra hlen
    push_neg at hlen
    have h5 : 5 ≤ (Nat.digits 10 n).length := hlen
    have hb := Nat.base_pow_length_digits_le 10 n (by norm_num) h0
    have h10 : (10 : ℕ)^5 ≤ 10 ^ (Nat.digits 10 n).length :=
      Nat.pow_le_pow_right (by norm_num) h5
    have : (10 : ℕ)^5 = 100000 := by norm_num
    omega

theorem digitsToNat_of_digits (ds : List ℕ) (h : ∀ d ∈ ds, d < 10) : ∀ acc : ℕ,
    List.foldl (fun n c => 10 * n + digitVal c) acc ((ds.reverse).map digitChar) =
      acc * 10 ^ ds.length + Nat.ofDigits 10 ds := by
  induction ds with
  | nil =>
    intro acc
    simp [Nat.ofDigits_nil]
  | cons d tl ih =>
    intro acc
    rw [List.reverse_cons, List.map_append, List.foldl_append]
    simp only [List.map_cons, List.map_nil, List.foldl_cons, List.foldl_nil]
    rw [ih (fun x hx => h x (List.mem_cons_of_mem _ hx)), Nat.ofDigits_cons,
      digitVal_digitChar d (h d (List.mem_cons_self _ _)), List.length_cons, pow_succ]
    ring

theorem digitsToNat_natCharsNN (n : ℕ) : digitsToNat (natCharsNN n) = n := by
  unfold natCharsNN natChars digitsToNat
  by_cases h : n = 0
  · rw [if_pos h, h]
    rfl
  · rw [if_neg h]
    rw [digitsToNat_of_digits (Nat.digits 10 n)
      (fun d hd => Nat.digits_lt_base (by norm_num) hd) 0]
    simp [Nat.ofDigits_digits]

theorem takeWhile_all_append (p : Char → Bool) (l1 l2 : List Char)
    (h1 : ∀ c ∈ l1, p c = true)
    (h2 : match l2 with | [] => True | c :: _ => p c = false) :
    (l1 ++ l2).takeWhile p = l1 ∧ (l1 ++ l2).dropWhile p = l2 := by
  induction l1 with
  | nil =>
    constructor
    · cases l2 with
      | nil => rfl
      | cons c t => simp [List.takeWhile_cons, h2]
    · cases l2 with
      | nil => rfl
      | cons c t => simp [List.dropWhile_cons, h2]
  | cons a t ih =>
    have ha := h1 a (List.mem_cons_self _ _)
    obtain ⟨ht, hd⟩ := ih (fun c hc => h1 c (List.mem_cons_of_mem _ hc))
    constructor
    · simp [List.takeWhile_cons, ha, ht]
    · simp [List.dropWhile_cons, ha, hd]

theorem mem_moneyChars_cases {cents : ℕ} {c : Char} (hc : c ∈ moneyChars cents) :
    (∃ d, c = digitChar d) ∨ c = '.' := by
  unfold moneyChars at hc
  rcases List.mem_append.mp hc with h | h
  · exact Or.inl (mem_natCharsNN_exists h)
  · rcases List.mem_cons.mp h with rfl | h
    · exact Or.inr rfl
    · rcases List.mem_cons.mp h with rfl | h
      · exact Or.inl ⟨_, rfl⟩
      · rcases List.mem_cons.mp h with rfl | h
        · exact Or.inl ⟨_, rfl⟩
        · exact absurd h (List.not_mem_nil _)

theorem mem_moneyChars_not_space {cents : ℕ} {c : Char} (hc : c ∈ moneyChars cents) :
    isRegexSpace c = false := by
  rcases mem_moneyChars_cases hc with ⟨d, rfl⟩ | rfl
  · exact isDigit_not_space (digitChar_isDigit d)
  · rfl

theorem mem_moneyChars_toLower {cents : ℕ} {c : Char} (hc : c ∈ moneyChars cents) :
    c.toLower = c := by
  rcases mem_moneyChars_cases hc with ⟨d, rfl⟩ | rfl
  · exact digitChar_toLower d
  · rfl

theorem parseNumToken_moneyChars (cents : ℕ) (h2 : cents ≤ 999999) :
    parseNumToken (moneyChars cents) = some (moneyChars cents, []) := by
  obtain ⟨htake, hdrop⟩ := takeWhile_all_append Char.isDigit (natCharsNN (cents / 100))
    ('.' :: [digitChar (cents % 100 / 10), digitChar (cents % 10)])
    (fun c hc => mem_natCharsNN_isDigit hc) (by show ('.').isDigit = false; rfl)
  have hip : cents / 100 ≤ 9999 := by omega
  have htk : ((moneyChars cents).takeWhile Char.isDigit).take 4 = natCharsNN (cents / 100) := by
    unfold moneyChars
    rw [htake, List.take_of_length_le (natCharsNN_length_le _ hip)]
  unfold parseNumToken
  rw [htk, if_neg (natCharsNN_ne_nil _)]
  have hdropn : (moneyChars cents).drop (natCharsNN (cents / 100)).length =
      '.' :: [digitChar (cents % 100 / 10), digitChar (cents % 10)] := by
    unfold moneyChars
    exact List.drop_left _ _
  rw [hdropn]
  have hreps : moneyReps ('.' :: [digitChar (cents % 100 / 10), digitChar (cents % 10)]) =
      ([], '.' :: [digitChar (cents % 100 / 10), digitChar (cents % 10)]) := rfl
  rw [hreps]
  have hfrac : moneyFrac ('.' :: [digitChar (cents % 100 / 10), digitChar (cents % 10)]) =
      (['.', digitChar (cents % 100 / 10), digitChar (cents % 10)], []) := by
    show (if ((digitChar (cents % 100 / 10)).isDigit && (digitChar (cents % 10)).isDigit) = true
        then (['.', digitChar (cents % 100 / 10), digitChar (cents % 10)], ([] : List Char))
        else ([], '.' :: [digitChar (cents % 100 / 10), digitChar (cents % 10)])) = _
    rw [if_pos (by simp [digitChar_isDigit])]
  rw [hfrac]
  simp [moneyChars]

theorem parseMoneyVal_moneyChars (cents : ℕ) : parseMoneyVal (moneyChars cents) =
    (cents : ℚ)/100 := by
  have hfilter : ((moneyChars cents).filter (fun c => c != ',')) = moneyChars cents := by
    rw [List.filter_eq_self]
    intro c hc
    rcases mem_moneyChars_cases hc with ⟨d, rfl⟩ | rfl
    · exact isDigit_ne_comma (digitChar_isDigit d)
    · rfl
  obtain ⟨htake, hdrop⟩ := takeWhile_all_append (fun c => c != '.') (natCharsNN (cents / 100))
    ('.' :: [digitChar (cents % 100 / 10), digitChar (cents % 10)])
    (fun c hc => isDigit_ne_dot (mem_natCharsNN_isDigit hc))
    (by show (('.' : Char) != '.') = false; rfl)
  unfold parseMoneyVal
  rw [hfilter]
  rw [show (moneyChars cents).takeWhile (fun c => c != '.') = natCharsNN (cents / 100) by
    unfold moneyChars; exact htake]
  rw [show (moneyChars cents).dropWhile (fun c => c != '.') =
      '.' :: [digitChar (cents % 100 / 10), digitChar (cents % 10)] by
    unfold moneyChars; exact hdrop]
  rw [digitsToNat_natCharsNN]
  have hf : digitsToNat (('.' :: [digitChar (cents % 100 / 10), digitChar (cents % 10)]).drop 1)
      = cents % 100 := by
    show 10 * (10 * 0 + digitVal (digitChar (cents % 100 / 10)))
        + digitVal (digitChar (cents % 10)) = cents % 100
    rw [digitVal_digitChar _ (by omega), digitVal_digitChar _ (by omega)]
    omega
  rw [hf]
  have hsum : (100 : ℚ) * (↑(cents / 100) : ℚ) + (↑(cents % 100) : ℚ) = (cents : ℚ) := by
    have := Nat.div_add_mod cents 100
    exact_mod_cast this
  field_simp
  linarith

end Receipt

namespace Receipt

/-! ### Explicit-total label-line evaluation for C3 -/

theorem afterTotalLabel_money (cents : ℕ) (h2 : cents ≤ 999999) :
    afterTotalLabel (':' :: ' ' :: '$' :: moneyChars cents) = some ((cents : ℚ)/100) := by
  unfold afterTotalLabel
  have hdw : (':' :: ' ' :: '$' :: moneyChars cents).dropWhile
      (fun c => isRegexSpace c || c == ':') = '$' :: moneyChars cents := by
    rw [List.dropWhile_cons, if_pos (by decide), List.dropWhile_cons, if_pos (by decide),
      List.dropWhile_cons, if_neg (by decide)]
  rw [hdw, show stripDollar ('$' :: moneyChars cents) = moneyChars cents from rfl]
  have hmny : (moneyChars cents).dropWhile isRegexSpace = moneyChars cents := by
    obtain ⟨c, t, hct⟩ := List.exists_cons_of_ne_nil
      (show moneyChars cents ≠ [] by
        unfold moneyChars
        intro hx
        exact natCharsNN_ne_nil (cents / 100) (List.append_eq_nil.mp hx).1)
    rw [hct, List.dropWhile_cons,
      if_neg (by simp [mem_moneyChars_not_space (hct ▸ List.mem_cons_self c t)])]
  rw [hmny, parseNumToken_moneyChars cents h2, Option.map_some']
  show some (parseMoneyVal (moneyChars cents)) = some ((cents : ℚ)/100)
  rw [parseMoneyVal_moneyChars]

theorem totalLabelAt_line (cents : ℕ) (h2 : cents ≤ 999999) :
    totalLabelAt ("Total: $".toList ++ moneyChars cents) = some ((cents : ℚ)/100) := by
  unfold totalLabelAt totalLabelAlternatives
  rw [List.findSome?_cons]
  have hstrip : stripWordsCI ["total".toList] ("Total: $".toList ++ moneyChars cents) =
      some (':' :: ' ' :: '$' :: moneyChars cents) := rfl
  rw [hstrip, Option.some_bind, afterTotalLabel_money cents h2]

theorem findTotalMatch_line (cents : ℕ) (h2 : cents ≤ 999999) :
    findTotalMatch ("Total: $".toList ++ moneyChars cents) = some ((cents : ℚ)/100) := by
  have hl : "Total: $".toList ++ moneyChars cents =
      'T' :: ("otal: $".toList ++ moneyChars cents) := rfl
  rw [hl]
  show (match totalLabelAt ('T' :: ("otal: $".toList ++ moneyChars cents)) with
    | some q => some q
    | none => findTotalMatch ("otal: $".toList ++ moneyChars cents)) = some ((cents : ℚ)/100)
  rw [← hl, totalLabelAt_line cents h2]

theorem totalLabelLine_clean (cents : ℕ) :
    cleanOf (totalLabelLine cents) = "total: $".toList ++ moneyChars cents := by
  unfold cleanOf totalLabelLine
  show (jsTrimC ("Total: $".toList ++ moneyChars cents)).map Char.toLower = _
  have htrim : jsTrimC ("Total: $".toList ++ moneyChars cents) =
      "Total: $".toList ++ moneyChars cents := by
    unfold jsTrimC trimLeftC trimRightC
    rw [show ("Total: $".toList ++ moneyChars cents) =
      'T' :: ("otal: $".toList ++ moneyChars cents) from rfl]
    rw [List.dropWhile_cons, if_neg (by decide)]
    have hrev : ('T' :: ("otal: $".toList ++ moneyChars cents)).reverse =
        digitChar (cents % 10) :: (digitChar (cents % 100 / 10) :: '.' ::
          ((natCharsNN (cents / 100)).reverse ++ ("otal: $".toList.reverse ++ ['T']))) := by
      unfold moneyChars
      simp
    rw [hrev, List.dropWhile_cons,
      if_neg (by simp [isDigit_not_space (digitChar_isDigit (cents % 10))]), ← hrev,
      List.reverse_reverse]
  rw [htrim, List.map_append]
  congr 1
  have hm : ∀ c ∈ moneyChars cents, Char.toLower c = c :=
    fun c hc => mem_moneyChars_toLower hc
  calc (moneyChars cents).map Char.toLower = (moneyChars cents).map id :=
        List.map_congr_left hm
    _ = moneyChars cents := List.map_id _

theorem lineTotalContribution_totalLabelLine (cents : ℕ) (h1 : 0 < cents)
    (h2 : cents ≤ 999999) :
    lineTotalContribution (totalLabelLine cents) = some ((cents : ℚ)/100) := by
  unfold lineTotalContribution
  rw [totalLabelLine_clean]
  have hb : isBoilerplate ("total: $".toList ++ moneyChars cents) = false := rfl
  rw [hb, if_neg (by simp)]
  rw [show (totalLabelLine cents).toList = "Total: $".toList ++ moneyChars cents from rfl,
    findTotalMatch_line cents h2]
  show (if 0 < (cents : ℚ)/100 ∧ (cents : ℚ)/100 < 10000 then some ((cents : ℚ)/100) else none)
    = some ((cents : ℚ)/100)
  rw [if_pos ⟨div_pos (by exact_mod_cast h1) (by norm_num), by
    rw [div_lt_iff₀ (by norm_num : (0:ℚ) < 100)]
    have : (cents : ℚ) ≤ 999999 := by exact_mod_cast h2
    linarith⟩]

end Receipt

namespace Receipt

/-! ### C3 -/

/-- C3 counterexample: the claim's bound 0 < a ≤ 10000 fails at a = 10000.
The document "Total: dollars 10,000.00" plus a 3-dollar item yields amount 3,
not 10000: the explicit-total capture 10000 fails the STRICT upper bound
(the code requires the total to be less than 10000, not at most), the
10000 money match is likewise discarded, and the remaining largest amount
wins. -/
theorem c3_counterexample :
    extractAmount "Total: $10,000.00\nWIDGET $3.00" = some 3 ∧ (3 : ℚ) ≠ 10000 := by
  constructor
  · have hlines : receiptLines "Total: $10,000.00\nWIDGET $3.00" =
        ["Total: $10,000.00", "WIDGET $3.00"] := by decide
    have hvA : digitsToNat (("10,000.00".toList.filter (fun c => c != ',')).takeWhile
        (fun c => c != '.')) = 10000 := by decide
    have hvB : digitsToNat ((("10,000.00".toList.filter (fun c => c != ',')).dropWhile
        (fun c => c != '.')).drop 1) = 0 := by decide
    have hv : parseMoneyVal "10,000.00".toList = 10000 := by
      unfold parseMoneyVal
      rw [hvA, hvB]
      norm_num
    have hv2 : parseMoneyVal "3.00".toList = 3 := by
      have hA : digitsToNat (("3.00".toList.filter (fun c => c != ',')).takeWhile
          (fun c => c != '.')) = 3 := by decide
      have hB : digitsToNat ((("3.00".toList.filter (fun c => c != ',')).dropWhile
          (fun c => c != '.')).drop 1) = 0 := by decide
      unfold parseMoneyVal
      rw [hA, hB]
      norm_num
    have hf1 : findTotalMatch "Total: $10,000.00".toList =
        some (parseMoneyVal "10,000.00".toList) := rfl
    have hm1 : findMoneyAmounts "Total: $10,000.00".toList =
        [parseMoneyVal "10,000.00".toList] := rfl
    have hf2 : findTotalMatch "WIDGET $3.00".toList = none := by decide
    have hm2 : findMoneyAmounts "WIDGET $3.00".toList = [parseMoneyVal "3.00".toList] := rfl
    have hfil1 : List.filter (fun p => decide (0 < p) && decide (p < 10000)) [(10000 : ℚ)]
        = [] := by
      rw [List.filter_cons, if_neg (by simp)]
      rfl
    have hfil2 : List.filter (fun p => decide (0 < p) && decide (p < 10000)) [(3 : ℚ)]
        = [(3 : ℚ)] := by
      rw [List.filter_cons, if_pos (by norm_num)]
      rfl
    have hltc1 : lineTotalContribution "Total: $10,000.00" = none := by
      unfold lineTotalContribution
      rw [if_neg (by decide), hf1, hv]
      show (if (0 : ℚ) < 10000 ∧ (10000 : ℚ) < 10000 then some (10000 : ℚ) else none) = none
      rw [if_neg (by norm_num)]
    have hst1 : scanLineStep (none, []) "Total: $10,000.00" =
        ((none : Option ℚ), ([] : List PriceEntry)) := by
      rw [Prod.ext_iff]
      refine ⟨?_, ?_⟩
      · rw [scanLineStep_fst, hltc1]
      · rw [scanLineStep_snd, if_neg (by decide), hm1, hv, hfil1]
        rfl
    have hst2 : scanLineStep (none, []) "WIDGET $3.00" =
        ((none : Option ℚ), [PriceEntry.mk 3 false]) := by
      rw [Prod.ext_iff]
      refine ⟨?_, ?_⟩
      · rw [scanLineStep_fst]
        rw [show lineTotalContribution "WIDGET $3.00" = none from by
          unfold lineTotalContribution
          rw [if_neg (by decide), hf2]]
      · rw [scanLineStep_snd, if_neg (by decide), hm2, hv2, hfil2]
        rw [show isLikelyTotalLine (cleanOf "WIDGET $3.00") = false from by decide]
        rfl
    show extractAmountLines (receiptLines "Total: $10,000.00\nWIDGET $3.00") = some 3
    rw [hlines]
    unfold extractAmountLines scanLines
    rw [List.foldl_cons, hst1, List.foldl_cons, hst2, List.foldl_nil]
    rfl
  · norm_num

/-- C3 (amended): for every cents value a with 0 < a < 10000 dollars
(0 < cents ≤ 999999), a document containing the explicit label line
"Total: dollars-a" whose later lines carry no in-range explicit-label match
yields amount exactly a (to two decimals) from the heuristic strategy,
whatever other money figures appear anywhere in the document: the explicit
total takes priority, with the LAST in-range label match winning (earlier
label lines are overridden).  At a = 10000 the strict bound rejects the
explicit total (see the counterexample), so the claim's inclusive bound must
be tightened to a strict one. -/
theorem c3_amended (pre post : List String) (cents : ℕ) (h1 : 0 < cents)
    (h2 : cents ≤ 999999)
    (hpost : ∀ l ∈ post, lineTotalContribution l = none) :
    extractAmountLines (pre ++ totalLabelLine cents :: post) = some ((cents : ℚ)/100) := by
  unfold extractAmountLines
  rw [scanLines_fst_of_unique pre post _ _
    (lineTotalContribution_totalLabelLine cents h1 h2) hpost]
  rfl

/-- Witness for C3 (amended): the 42.50-dollar total line surrounded by a
9999-dollar figure before it and a 3-dollar figure after it still yields
42.50. -/
theorem c3_amended_witness :
    extractAmountLines (["WIDGET $9999.00"] ++ totalLabelLine 4250 :: ["MISC $3.00"]) =
      some ((4250 : ℚ)/100) := by
  refine c3_amended ["WIDGET $9999.00"] ["MISC $3.00"] 4250 (by norm_num) (by norm_num) ?_
  intro l hl
  rw [List.mem_singleton.mp hl]
  decide

end Receipt
